import Mathlib

/-!
# Verification of the tenant-partitioned notes storage core

Shallow embedding of the storage and concurrency layer of the clinical-notes
backend: the DynamoDB key scheme (`src/data/keys.ts`), the cursor codec
(`src/data/cursor.ts`), the note repository (`src/data/notes.repository.ts`)
and the fixed-window rate limiter (`src/lib/rate-limit.ts`).

The underlying DynamoDB table is modelled as an association list from
`(PK, SK)` string pairs to items.  `docClient.send` failures are modelled by
an explicit `fault` argument on the operations whose error behaviour is under
scrutiny (an injected fault stands for the SDK call throwing an arbitrary,
non-conditional-check store error).  Timestamps (`new Date().toISOString()`)
and generated UUIDs are passed in as arguments.
-/

set_option maxHeartbeats 1000000

/-! ## Key scheme (`src/data/keys.ts`) -/

/-- `buildPK` from `keys.ts`: partition key for a patient's notes. -/
def buildPK (clinicId patientId : String) : String :=
  "CLINIC#" ++ clinicId ++ "#PATIENT#" ++ patientId

/-- `buildSK` from `keys.ts`: sort key for a note. -/
def buildSK (studyDate noteId : String) : String :=
  "NOTE#" ++ studyDate ++ "#" ++ noteId

/-! ## Data model (`src/types/index.ts`) -/

/-- `Attachment` from the types module. -/
structure Attachment where
  id : String
  fileName : String
  contentType : String
  sizeBytes : Nat
  s3Key : String
  uploadedAt : String
deriving DecidableEq, Repr

/-- `DynamoDBNoteItem` from `notes.repository.ts` (the stored shape; the key
pair lives on the enclosing store entry). -/
structure NoteItem where
  noteId : String
  clinicId : String
  patientId : String
  studyDate : String
  title : String
  content : String
  noteType : Option String
  tags : List String
  attachments : List Attachment
  createdAt : String
  updatedAt : String
  createdBy : String
  createdByName : String
  updatedBy : String
  updatedByName : String
  version : Nat
  deletedAt : Option String
  deletedBy : Option String
  entityType : String
deriving DecidableEq, Repr

/-- `Note` — the domain entity returned to callers. -/
structure Note where
  noteId : String
  clinicId : String
  patientId : String
  studyDate : String
  title : String
  content : String
  noteType : Option String
  tags : List String
  attachments : List Attachment
  createdAt : String
  updatedAt : String
  createdBy : String
  createdByName : String
  updatedBy : String
  updatedByName : String
  version : Nat
  deletedAt : Option String
  deletedBy : Option String
deriving DecidableEq, Repr

/-- `itemToNote` from `notes.repository.ts`. -/
def itemToNote (item : NoteItem) : Note :=
  { noteId := item.noteId
    clinicId := item.clinicId
    patientId := item.patientId
    studyDate := item.studyDate
    title := item.title
    content := item.content
    noteType := item.noteType
    tags := item.tags
    attachments := item.attachments
    createdAt := item.createdAt
    updatedAt := item.updatedAt
    createdBy := item.createdBy
    createdByName := item.createdByName
    updatedBy := item.updatedBy
    updatedByName := item.updatedByName
    version := item.version
    deletedAt := item.deletedAt
    deletedBy := item.deletedBy }

/-- `CreateNoteInput`. -/
structure CreateNoteInput where
  studyDate : String
  title : String
  content : String
  noteType : Option String
  tags : Option (List String)
  attachments : Option (List Attachment)
deriving DecidableEq, Repr

/-- `UpdateNoteInput`: every content field optional, `version` is the
caller's expected version for the optimistic-concurrency check. -/
structure UpdateNoteInput where
  title : Option String
  content : Option String
  noteType : Option String
  tags : Option (List String)
  attachments : Option (List Attachment)
  version : Nat
deriving DecidableEq, Repr

/-- Typed errors surfaced by the repository (`src/lib/errors.ts`), plus the
raw outcomes that propagate uncaught: a `ConditionalCheckFailedException`
escaping `create`, and an unclassified store error. -/
inductive RepoError where
  | notFound
  | conflict (expected current : Nat)
  | condCheckFailed
  | storeError (msg : String)
deriving DecidableEq, Repr

/-! ## The store -/

/-- One persisted item together with its full primary key. -/
structure StoreEntry where
  pk : String
  sk : String
  item : NoteItem
deriving DecidableEq, Repr

/-- The DynamoDB table (notes namespace), as an association list. -/
abbrev Store := List StoreEntry

/-- Point read at a primary key (`GetCommand`). -/
def storeGet : Store → String → String → Option NoteItem
  | [], _, _ => none
  | e :: rest, pk, sk =>
    if e.pk = pk ∧ e.sk = sk then some e.item else storeGet rest pk sk

/-- Unconditional write at a primary key (`PutCommand` / applied
`UpdateCommand`): replaces the existing item or inserts a fresh one. -/
def storePut : Store → String → String → NoteItem → Store
  | [], pk, sk, item => [⟨pk, sk, item⟩]
  | e :: rest, pk, sk, item =>
    if e.pk = pk ∧ e.sk = sk then ⟨pk, sk, item⟩ :: rest
    else e :: storePut rest pk sk item

/-! ## Note repository: create / findById / update / softDelete -/

/-- `create` from `notes.repository.ts`.  The conditional put
(`attribute_not_exists(PK)`) fails when an item already occupies the key; that
`ConditionalCheckFailedException` is not caught in `create` and propagates.
`noteId` (the generated UUID) and `now` are passed in. -/
def create (fault : Option String) (st : Store) (clinicId patientId : String)
    (userId username : String) (noteId now : String) (input : CreateNoteInput) :
    Except RepoError Note × Store :=
  match fault with
  | some msg => (.error (.storeError msg), st)
  | none =>
    let pk := buildPK clinicId patientId
    let sk := buildSK input.studyDate noteId
    let item : NoteItem :=
      { noteId := noteId
        clinicId := clinicId
        patientId := patientId
        studyDate := input.studyDate
        title := input.title
        content := input.content
        noteType := input.noteType
        tags := input.tags.getD []
        attachments := input.attachments.getD []
        createdAt := now
        updatedAt := now
        createdBy := userId
        createdByName := username
        updatedBy := userId
        updatedByName := username
        version := 1
        deletedAt := none
        deletedBy := none
        entityType := "NOTE" }
    match storeGet st pk sk with
    | some _ => (.error .condCheckFailed, st)
    | none => (.ok (itemToNote item), storePut st pk sk item)

/-- `findById` from `notes.repository.ts`: point read, soft-delete filtered. -/
def findById (st : Store) (clinicId patientId noteId studyDate : String) :
    Option Note :=
  match storeGet st (buildPK clinicId patientId) (buildSK studyDate noteId) with
  | none => none
  | some item => if item.deletedAt.isSome then none else some (itemToNote item)

/-- The `SET` clause assembled by `update`: always refreshes
`updatedAt`/`updatedBy`/`updatedByName` and increments `version`; adds a
clause for `title`, `content` and `attachments` only when present in the
input.  (`noteType` and `tags` never receive a clause in the source.) -/
def applyUpdateExpr (item : NoteItem) (now userId username : String)
    (input : UpdateNoteInput) : NoteItem :=
  { item with
    updatedAt := now
    updatedBy := userId
    updatedByName := username
    version := item.version + 1
    title := input.title.getD item.title
    content := input.content.getD item.content
    attachments := input.attachments.getD item.attachments }

/-- `update` from `notes.repository.ts`.  The conditional write requires
`attribute_exists(PK) AND attribute_not_exists(deletedAt) AND
version = :expectedVersion`.  On `ConditionalCheckFailedException` the item is
re-read through `findById`; a missing/deleted item yields `NotFoundError`,
otherwise `ConflictError` carrying the expected and the current version.  Any
other store error propagates uncaught. -/
def update (fault : Option String) (st : Store)
    (clinicId patientId noteId studyDate : String) (userId username now : String)
    (input : UpdateNoteInput) : Except RepoError Note × Store :=
  match fault with
  | some msg => (.error (.storeError msg), st)
  | none =>
    let pk := buildPK clinicId patientId
    let sk := buildSK studyDate noteId
    match storeGet st pk sk with
    | none => (.error .notFound, st)
    | some item =>
      if item.deletedAt.isSome then (.error .notFound, st)
      else if item.version = input.version then
        let item' := applyUpdateExpr item now userId username input
        (.ok (itemToNote item'), storePut st pk sk item')
      else (.error (.conflict input.version item.version), st)

/-- `softDelete` from `notes.repository.ts`: conditional write requiring
`attribute_exists(PK) AND attribute_not_exists(deletedAt)`, setting exactly
`deletedAt` and `deletedBy`; condition failure maps to `NotFoundError`. -/
def softDelete (st : Store) (clinicId patientId noteId studyDate : String)
    (userId now : String) : Except RepoError Unit × Store :=
  let pk := buildPK clinicId patientId
  let sk := buildSK studyDate noteId
  match storeGet st pk sk with
  | none => (.error .notFound, st)
  | some item =>
    if item.deletedAt.isSome then (.error .notFound, st)
    else
      let item' := { item with deletedAt := some now, deletedBy := some userId }
      (.ok (), storePut st pk sk item')

/-! ## Cursor codec (`src/data/cursor.ts`)

`encodeCursor` is `base64url(JSON.stringify({ PK, SK }))`; `decodeCursor`
base64url-decodes, `JSON.parse`s inside a `try`, checks both fields are
strings of the expected key families, and returns `undefined` on any failure.
The byte level (`Buffer`, UTF-8) and `JSON.parse`/`JSON.stringify` are
modelled concretely below; the JSON model covers flat objects whose values
are strings, which is the shape the codec produces and consumes (any other
JSON shape fails the codec's `typeof ... !== 'string'` checks). -/

/-- UTF-8 encoding of one Unicode scalar value. -/
def utf8EncodeChar (n : Nat) : List Nat :=
  if n < 128 then [n]
  else if n < 2048 then [192 + n / 64, 128 + n % 64]
  else if n < 65536 then [224 + n / 4096, 128 + n / 64 % 64, 128 + n % 64]
  else [240 + n / 262144, 128 + n / 4096 % 64, 128 + n / 64 % 64, 128 + n % 64]

/-- UTF-8 encoding of a character sequence (`Buffer.from(s, 'utf-8')`). -/
def utf8Encode : List Char → List Nat
  | [] => []
  | c :: cs => utf8EncodeChar c.toNat ++ utf8Encode cs

/-- U+FFFD, emitted by the total decoder for malformed byte sequences. -/
def replacementChar : Char := Char.ofNat 65533

/-- Fuelled total UTF-8 decoder (`buffer.toString('utf-8')` never throws;
malformed sequences become replacement characters). -/
def utf8DecodeF : Nat → List Nat → List Char
  | _, [] => []
  | 0, _ => []
  | fuel + 1, b :: bs =>
    if b < 128 then Char.ofNat b :: utf8DecodeF fuel bs
    else if b < 192 then replacementChar :: utf8DecodeF fuel bs
    else if b < 224 then
      match bs with
      | b2 :: bs2 =>
        if 128 ≤ b2 ∧ b2 < 192 then
          Char.ofNat ((b - 192) * 64 + (b2 - 128)) :: utf8DecodeF fuel bs2
        else replacementChar :: utf8DecodeF fuel bs
      | [] => [replacementChar]
    else if b < 240 then
      match bs with
      | b2 :: b3 :: bs3 =>
        if (128 ≤ b2 ∧ b2 < 192) ∧ (128 ≤ b3 ∧ b3 < 192) then
          Char.ofNat ((b - 224) * 4096 + (b2 - 128) * 64 + (b3 - 128)) ::
            utf8DecodeF fuel bs3
        else replacementChar :: utf8DecodeF fuel bs
      | _ => [replacementChar]
    else if b < 248 then
      match bs with
      | b2 :: b3 :: b4 :: bs4 =>
        if (128 ≤ b2 ∧ b2 < 192) ∧ (128 ≤ b3 ∧ b3 < 192) ∧ (128 ≤ b4 ∧ b4 < 192) then
          Char.ofNat
              ((b - 240) * 262144 + (b2 - 128) * 4096 + (b3 - 128) * 64 + (b4 - 128)) ::
            utf8DecodeF fuel bs4
        else replacementChar :: utf8DecodeF fuel bs
      | _ => [replacementChar]
    else replacementChar :: utf8DecodeF fuel bs

/-- Total UTF-8 decoder. -/
def utf8Decode (bs : List Nat) : List Char := utf8DecodeF bs.length bs

/-- Code of the `n`-th character of the base64url alphabet
(`A-Z a-z 0-9 - _`). -/
def b64Code (n : Nat) : Nat :=
  if n < 26 then 65 + n
  else if n < 52 then 97 + (n - 26)
  else if n < 62 then 48 + (n - 52)
  else if n = 62 then 45
  else 95

/-- `n`-th character of the base64url alphabet. -/
def b64Char (n : Nat) : Char := Char.ofNat (b64Code n)

/-- Sextet value of a base64url alphabet character; `none` for characters
outside the alphabet (Node's decoder skips those). -/
def b64Val (c : Char) : Option Nat :=
  let n := c.toNat
  if 65 ≤ n ∧ n ≤ 90 then some (n - 65)
  else if 97 ≤ n ∧ n ≤ 122 then some (26 + (n - 97))
  else if 48 ≤ n ∧ n ≤ 57 then some (52 + (n - 48))
  else if n = 45 then some 62
  else if n = 95 then some 63
  else none

/-- base64url encoding (unpadded, as produced by
`buffer.toString('base64url')`). -/
def b64encodeBytes : List Nat → List Char
  | [] => []
  | [a] => [b64Char (a / 4), b64Char (a % 4 * 16)]
  | [a, b] => [b64Char (a / 4), b64Char (a % 4 * 16 + b / 16), b64Char (b % 16 * 4)]
  | a :: b :: c :: rest =>
    b64Char (a / 4) :: b64Char (a % 4 * 16 + b / 16) ::
      b64Char (b % 16 * 4 + c / 64) :: b64Char (c % 64) :: b64encodeBytes rest

/-- Reassemble bytes from a sextet sequence; a trailing lone sextet is
dropped, as in Node's decoder. -/
def b64decodeVals : List Nat → List Nat
  | [] => []
  | [_] => []
  | [x, y] => [x * 4 + y / 16]
  | [x, y, z] => [x * 4 + y / 16, y % 16 * 16 + z / 4]
  | x :: y :: z :: w :: rest =>
    (x * 4 + y / 16) :: (y % 16 * 16 + z / 4) :: (z % 4 * 64 + w) :: b64decodeVals rest

/-- Total base64url decoding (`Buffer.from(s, 'base64url')`): characters
outside the alphabet are skipped, never a thrown fault. -/
def b64decodeChars (cs : List Char) : List Nat :=
  b64decodeVals (cs.filterMap b64Val)

/-- Left brace character (written via its code). -/
def lbraceChar : Char := Char.ofNat 123

/-- Right brace character (written via its code). -/
def rbraceChar : Char := Char.ofNat 125

/-- Lowercase hex digit. -/
def hexDigitChar (n : Nat) : Char :=
  Char.ofNat (if n < 10 then 48 + n else 87 + n)

/-- Hex digit value (JSON `\u` escapes accept both cases). -/
def hexVal (c : Char) : Option Nat :=
  let n := c.toNat
  if 48 ≤ n ∧ n ≤ 57 then some (n - 48)
  else if 97 ≤ n ∧ n ≤ 102 then some (10 + (n - 97))
  else if 65 ≤ n ∧ n ≤ 70 then some (10 + (n - 65))
  else none

/-- `JSON.stringify` escaping of one character inside a string literal. -/
def escChar (c : Char) : List Char :=
  if c = '"' then ['\\', '"']
  else if c = '\\' then ['\\', '\\']
  else if c.toNat ≥ 32 then [c]
  else if c.toNat = 8 then ['\\', 'b']
  else if c.toNat = 9 then ['\\', 't']
  else if c.toNat = 10 then ['\\', 'n']
  else if c.toNat = 12 then ['\\', 'f']
  else if c.toNat = 13 then ['\\', 'r']
  else ['\\', 'u', '0', '0', hexDigitChar (c.toNat / 16), hexDigitChar (c.toNat % 16)]

/-- `JSON.stringify` escaping of a whole string body. -/
def escapeChars : List Char → List Char
  | [] => []
  | c :: cs => escChar c ++ escapeChars cs

/-- Characters of `JSON.stringify({ PK: pk, SK: sk })`. -/
def cursorJsonChars (pk sk : List Char) : List Char :=
  lbraceChar :: '"' :: 'P' :: 'K' :: '"' :: ':' :: '"' ::
    (escapeChars pk ++ '"' :: ',' :: '"' :: 'S' :: 'K' :: '"' :: ':' :: '"' ::
      (escapeChars sk ++ ['"', rbraceChar]))

/-- JSON whitespace. -/
def isWsChar (c : Char) : Bool :=
  c = ' ' ∨ c = '\t' ∨ c = '\n' ∨ c = '\r'

/-- Skip leading JSON whitespace. -/
def skipWs : List Char → List Char
  | [] => []
  | c :: cs => if isWsChar c then skipWs cs else c :: cs

/-- Single-character JSON escapes. -/
def escMapChar (e : Char) : Option Char :=
  if e = '"' then some '"'
  else if e = '\\' then some '\\'
  else if e = '/' then some '/'
  else if e = 'b' then some (Char.ofNat 8)
  else if e = 'f' then some (Char.ofNat 12)
  else if e = 'n' then some (Char.ofNat 10)
  else if e = 'r' then some (Char.ofNat 13)
  else if e = 't' then some (Char.ofNat 9)
  else none

/-- Fuelled parser for a JSON string body (opening quote already consumed);
returns the decoded characters and the rest of the input.  Raw control
characters are rejected, as in `JSON.parse`. -/
def parseStrBodyF : Nat → List Char → Option (List Char × List Char)
  | 0, _ => none
  | _ + 1, [] => none
  | fuel + 1, c :: cs =>
    if c = '"' then some ([], cs)
    else if c = '\\' then
      match cs with
      | [] => none
      | e :: cs1 =>
        if e = 'u' then
          match cs1 with
          | h1 :: h2 :: h3 :: h4 :: cs2 =>
            match hexVal h1, hexVal h2, hexVal h3, hexVal h4 with
            | some v1, some v2, some v3, some v4 =>
              match parseStrBodyF fuel cs2 with
              | some (s, r) =>
                some (Char.ofNat (((v1 * 16 + v2) * 16 + v3) * 16 + v4) :: s, r)
              | none => none
            | _, _, _, _ => none
          | _ => none
        else
          match escMapChar e with
          | some d =>
            match parseStrBodyF fuel cs1 with
            | some (s, r) => some (d :: s, r)
            | none => none
          | none => none
    else if c.toNat < 32 then none
    else
      match parseStrBodyF fuel cs with
      | some (s, r) => some (c :: s, r)
      | none => none

/-- JSON string body parser with sufficient fuel. -/
def parseStrBody (l : List Char) : Option (List Char × List Char) :=
  parseStrBodyF l.length l

/-- Fuelled parser for the member list of a flat string-valued JSON object
(after the opening brace), through the closing brace; requires only
whitespace afterwards, as `JSON.parse` rejects trailing input. -/
def parseMembersF : Nat → List Char → Option (List (String × String))
  | 0, _ => none
  | fuel + 1, l =>
    match skipWs l with
    | [] => none
    | c :: cs =>
      if c = '"' then
        match parseStrBody cs with
        | none => none
        | some (k, r1) =>
          match skipWs r1 with
          | c2 :: r2 =>
            if c2 = ':' then
              match skipWs r2 with
              | c3 :: r3 =>
                if c3 = '"' then
                  match parseStrBody r3 with
                  | none => none
                  | some (v, r4) =>
                    match skipWs r4 with
                    | c5 :: r5 =>
                      if c5 = ',' then
                        match parseMembersF fuel r5 with
                        | some ms => some ((String.mk k, String.mk v) :: ms)
                        | none => none
                      else if c5 = rbraceChar then
                        if (skipWs r5).isEmpty then
                          some [(String.mk k, String.mk v)]
                        else none
                      else none
                    | [] => none
                else none
              | [] => none
            else none
          | [] => none
      else none

/-- `JSON.parse` restricted to flat objects with string values: the shape the
cursor codec emits and the only shape that can pass its `typeof` checks. -/
def parseCursorObj (l : List Char) : Option (List (String × String)) :=
  match skipWs l with
  | c :: cs =>
    if c = lbraceChar then
      match skipWs cs with
      | d :: ds =>
        if d = rbraceChar then
          if (skipWs ds).isEmpty then some [] else none
        else parseMembersF (cs.length + 1) cs
      | [] => none
    else none
  | [] => none

/-- JavaScript object field access after `JSON.parse`: with duplicate keys
the last occurrence wins. -/
def lookupLast (k : String) : List (String × String) → Option String
  | [] => none
  | (k', v) :: rest =>
    match lookupLast k rest with
    | some v' => some v'
    | none => if k' = k then some v else none

/-- `String.prototype.startsWith`. -/
def strStarts (s pre : String) : Bool := pre.data.isPrefixOf s.data

/-- `encodeCursor` from `cursor.ts`. -/
def encodeCursor (pk sk : String) : String :=
  String.mk (b64encodeBytes (utf8Encode (cursorJsonChars pk.data sk.data)))

/-- `decodeCursor` from `cursor.ts`: total; `none` models `undefined`. -/
def decodeCursor (cursor : String) : Option (String × String) :=
  match parseCursorObj (utf8Decode (b64decodeChars cursor.data)) with
  | none => none
  | some ms =>
    match lookupLast "PK" ms, lookupLast "SK" ms with
    | some pk, some sk =>
      if strStarts pk "CLINIC#" && strStarts sk "NOTE#" then some (pk, sk)
      else none
    | _, _ => none

/-! ## Note repository: list -/

/-- Strict lexicographic order on character sequences by code point — the
order DynamoDB applies to string sort keys (UTF-8 byte order coincides with
code-point order). -/
def charListLt : List Char → List Char → Bool
  | [], [] => false
  | [], _ :: _ => true
  | _ :: _, [] => false
  | a :: as, b :: bs =>
    if a.toNat < b.toNat then true
    else if b.toNat < a.toNat then false
    else charListLt as bs

/-- Strict string order, DynamoDB-style. -/
def strLtB (a b : String) : Bool := charListLt a.data b.data

/-- Reflexive string order, DynamoDB-style. -/
def strLeB (a b : String) : Bool := !strLtB b a

/-- `ListNotesOptions` from `notes.repository.ts`. -/
structure ListNotesOptions where
  cursor : Option String
  limit : Nat
  studyDateFrom : Option String
  studyDateTo : Option String
  tag : Option String
deriving DecidableEq, Repr

/-- `PaginatedResponse<Note>`. -/
structure PaginatedNotes where
  items : List Note
  nextCursor : Option String
  hasMore : Bool
deriving DecidableEq, Repr

/-- The four `KeyConditionExpression` shapes of `list`, as a predicate on the
sort key (`BETWEEN` is inclusive; the upper bound is padded with `~`). -/
def keyCondSK (opts : ListNotesOptions) (sk : String) : Bool :=
  match opts.studyDateFrom, opts.studyDateTo with
  | some f, some t =>
    strLeB ("NOTE#" ++ f) sk && strLeB sk ("NOTE#" ++ t ++ "~")
  | some f, none => strLeB ("NOTE#" ++ f) sk
  | none, some t =>
    strLeB "NOTE#" sk && strLeB sk ("NOTE#" ++ t ++ "~")
  | none, none => strStarts sk "NOTE#"

/-- Descending sort-key order on store entries (`ScanIndexForward: false`). -/
def skDescRel (a b : StoreEntry) : Prop := strLeB b.sk a.sk = true

instance : DecidableRel skDescRel := fun a b => by
  unfold skDescRel
  infer_instance

/-- The DynamoDB `Query` of `list`: partition pinned to `:pk`, sort keys
filtered by the key condition, scanned in descending sort-key order starting
strictly after the (sort-side) continuation position, with `Limit: limit + 1`
applied to the scanned items before any filter expression. -/
def queryRaw (st : Store) (pk : String) (opts : ListNotesOptions) :
    List StoreEntry :=
  let matching := st.filter fun e => decide (e.pk = pk) && keyCondSK opts e.sk
  let sorted := List.insertionSort skDescRel matching
  let started : List StoreEntry :=
    match opts.cursor.bind decodeCursor with
    | some ck => sorted.filter fun e => strLtB e.sk ck.2
    | none => sorted
  started.take (opts.limit + 1)

/-- The `FilterExpression` of `list`: live items only, optional tag
containment. -/
def itemLiveFilter (opts : ListNotesOptions) (item : NoteItem) : Bool :=
  item.deletedAt.isNone &&
    match opts.tag with
    | some t => item.tags.contains t
    | none => true

/-- `result.Items` as received by `list`'s post-processing. -/
def queryItems (st : Store) (pk : String) (opts : ListNotesOptions) :
    List StoreEntry :=
  (queryRaw st pk opts).filter fun e => itemLiveFilter opts e.item

/-- `list` from `notes.repository.ts`. -/
def list (st : Store) (clinicId patientId : String) (opts : ListNotesOptions) :
    PaginatedNotes :=
  let pk := buildPK clinicId patientId
  let items := queryItems st pk opts
  let hasMore := decide (items.length > opts.limit)
  let kept : List StoreEntry :=
    if items.length > opts.limit then items.dropLast else items
  let nextCursor : Option String :=
    if items.length > opts.limit ∧ kept ≠ [] then
      match kept.getLast? with
      | some e => some (encodeCursor e.pk e.sk)
      | none => none
    else none
  { items := kept.map fun e => itemToNote e.item
    nextCursor := nextCursor
    hasMore := hasMore }

/-! ## Rate limiter (`src/lib/rate-limit.ts`) -/

/-- `RateLimitConfig` from `rate-limit-config.ts`. -/
structure RateLimitConfig where
  name : String
  maxRequests : Nat
  windowSeconds : Nat
deriving DecidableEq, Repr

/-- `RateLimitResult`. -/
structure RateLimitResult where
  allowed : Bool
  current : Nat
  limit : Nat
  retryAfter : Nat
deriving DecidableEq, Repr

/-- Log levels of the structured logger, to state *how* a failure is
reported. -/
inductive LogLevel where
  | debug
  | info
  | warn
  | error
deriving DecidableEq, Repr

/-- Rate-limit records: key pair to `(count, ttl)`. -/
abbrev RLStore := List ((String × String) × (Nat × Nat))

/-- Point read on the rate-limit records. -/
def rlGet : RLStore → String × String → Option (Nat × Nat)
  | [], _ => none
  | (k, v) :: rest, key => if k = key then some v else rlGet rest key

/-- Upsert on the rate-limit records (`UpdateCommand` creates the item when
absent). -/
def rlPut : RLStore → String × String → Nat × Nat → RLStore
  | [], key, v => [(key, v)]
  | (k, w) :: rest, key, v =>
    if k = key then (key, v) :: rest else (k, w) :: rlPut rest key v

/-- `buildRateLimitPK`. -/
def buildRateLimitPK (identifier configName : String) : String :=
  "RATELIMIT#" ++ configName ++ "#" ++ identifier

/-- `buildRateLimitSK`: keyed by the window boundary
`floor(now / windowSeconds) * windowSeconds` (`nowSec` is
`Date.now() / 1000` rounded down). -/
def buildRateLimitSK (nowSec windowSeconds : Nat) : String :=
  "WINDOW#" ++ toString (nowSec / windowSeconds * windowSeconds)

/-- `incrementRateLimit` from `rate-limit.ts`: atomic
`SET count = if_not_exists(count, 0) + 1`, post-increment count returned,
`allowed = current <= maxRequests`; any store error is caught (fail-open:
`allowed = true`, `current = 0`) and logged at `warn`.  The third component
records the levels of the log calls made. -/
def incrementRateLimit (fault : Option String) (st : RLStore) (nowSec : Nat)
    (identifier : String) (config : RateLimitConfig) :
    RateLimitResult × RLStore × List LogLevel :=
  let pk := buildRateLimitPK identifier config.name
  let sk := buildRateLimitSK nowSec config.windowSeconds
  let windowStart := nowSec / config.windowSeconds * config.windowSeconds
  let ttl := windowStart + config.windowSeconds + 60
  match fault with
  | some _ =>
    ({ allowed := true
       current := 0
       limit := config.maxRequests
       retryAfter := config.windowSeconds }, st, [LogLevel.warn])
  | none =>
    let prev := ((rlGet st (pk, sk)).map Prod.fst).getD 0
    let current := prev + 1
    let windowEnd := windowStart + config.windowSeconds
    ({ allowed := decide (current ≤ config.maxRequests)
       current := current
       limit := config.maxRequests
       retryAfter := max 1 (windowEnd - nowSec) }, rlPut st (pk, sk) (current, ttl), [])

/-- `checkRateLimit` from `rate-limit.ts`: reads the current window counter
without incrementing; `allowed = current < maxRequests`; store errors are
caught (fail-open) and logged at `warn`. -/
def checkRateLimit (fault : Option String) (st : RLStore) (nowSec : Nat)
    (identifier : String) (config : RateLimitConfig) :
    RateLimitResult × List LogLevel :=
  let pk := buildRateLimitPK identifier config.name
  let sk := buildRateLimitSK nowSec config.windowSeconds
  match fault with
  | some _ =>
    ({ allowed := true
       current := 0
       limit := config.maxRequests
       retryAfter := config.windowSeconds }, [LogLevel.warn])
  | none =>
    let current := ((rlGet st (pk, sk)).map Prod.fst).getD 0
    let windowStart := nowSec / config.windowSeconds * config.windowSeconds
    let windowEnd := windowStart + config.windowSeconds
    ({ allowed := decide (current < config.maxRequests)
       current := current
       limit := config.maxRequests
       retryAfter := max 1 (windowEnd - nowSec) }, [])

/-- `k` fault-free increments for the same identifier at the same instant. -/
def rlIncrN (identifier : String) (config : RateLimitConfig) (nowSec : Nat) :
    Nat → RLStore → RLStore
  | 0, st => st
  | k + 1, st =>
    rlIncrN identifier config nowSec k
      (incrementRateLimit none st nowSec identifier config).2.1

/-! ## Iterated successful updates and concrete fixtures -/

/-- `k` successive successful updates: each round re-reads the current
version (as a well-behaved caller would after a conflict) and submits it as
`expectedVersion`, so each round's conditional write succeeds. -/
def updateNTimes (input : UpdateNoteInput) (clinicId patientId noteId studyDate : String)
    (userId username now : String) : Nat → Store → Store
  | 0, st => st
  | k + 1, st =>
    let st' : Store :=
      match storeGet st (buildPK clinicId patientId) (buildSK studyDate noteId) with
      | none => st
      | some item =>
        (update none st clinicId patientId noteId studyDate userId username now
          { input with version := item.version }).2
    updateNTimes input clinicId patientId noteId studyDate userId username now k st'

/-- A live stored note at version 3 (fixture). -/
def fxLive : NoteItem :=
  { noteId := "n1", clinicId := "c", patientId := "p", studyDate := "2024-01-01",
    title := "t", content := "x", noteType := some "clinical", tags := ["sleep"],
    attachments := [], createdAt := "T0", updatedAt := "T0", createdBy := "u",
    createdByName := "U", updatedBy := "u", updatedByName := "U", version := 3,
    deletedAt := none, deletedBy := none, entityType := "NOTE" }

/-- A soft-deleted stored note (fixture). -/
def fxDeleted : NoteItem := { fxLive with deletedAt := some "T9", deletedBy := some "u" }

/-- Store holding the live fixture note. -/
def fxStore : Store := [⟨buildPK "c" "p", buildSK "2024-01-01" "n1", fxLive⟩]

/-- Store holding the soft-deleted fixture note. -/
def fxStoreDel : Store := [⟨buildPK "c" "p", buildSK "2024-01-01" "n1", fxDeleted⟩]

/-- The live fixture note after the repository's update `SET` clause for an
input carrying only `noteType`/`tags` (which the clause ignores). -/
def fxUpdated : NoteItem :=
  { fxLive with
    updatedAt := "T1"
    updatedBy := "u2"
    updatedByName := "U2"
    version := 4 }

/-- Five live notes for one patient, distinct study dates (fixture). -/
def fx5Store : Store :=
  [ ⟨buildPK "c" "p", buildSK "2024-01-01" "n1",
      { fxLive with noteId := "n1", studyDate := "2024-01-01" }⟩,
    ⟨buildPK "c" "p", buildSK "2024-01-02" "n2",
      { fxLive with noteId := "n2", studyDate := "2024-01-02" }⟩,
    ⟨buildPK "c" "p", buildSK "2024-01-03" "n3",
      { fxLive with noteId := "n3", studyDate := "2024-01-03" }⟩,
    ⟨buildPK "c" "p", buildSK "2024-01-04" "n4",
      { fxLive with noteId := "n4", studyDate := "2024-01-04" }⟩,
    ⟨buildPK "c" "p", buildSK "2024-01-05" "n5",
      { fxLive with noteId := "n5", studyDate := "2024-01-05" }⟩ ]

/-- First page of the `limit = 2` walk over the five fixture notes. -/
def fxPage1 : PaginatedNotes := list fx5Store "c" "p" ⟨none, 2, none, none, none⟩

/-- Second page, resumed from the first page's cursor. -/
def fxPage2 : PaginatedNotes :=
  list fx5Store "c" "p" ⟨fxPage1.nextCursor, 2, none, none, none⟩

/-- Third page, resumed from the second page's cursor. -/
def fxPage3 : PaginatedNotes :=
  list fx5Store "c" "p" ⟨fxPage2.nextCursor, 2, none, none, none⟩

/-! # Theorems -/

/-! ## Store lemmas -/

theorem storeGet_storePut_self (st : Store) (pk sk : String) (item : NoteItem) :
    storeGet (storePut st pk sk item) pk sk = some item := by
  induction st with
  | nil => simp [storePut, storeGet]
  | cons e rest ih =>
    by_cases h : e.pk = pk ∧ e.sk = sk
    · simp [storePut, storeGet, h]
    · simp only [storePut, if_neg h]
      simp [storeGet, h, ih]

theorem update_fail_no_mutation (st : Store)
    (clinicId patientId noteId studyDate userId username now : String)
    (input : UpdateNoteInput) (e : RepoError)
    (h : (update none st clinicId patientId noteId studyDate userId username now input).1 =
      .error e) :
    (update none st clinicId patientId noteId studyDate userId username now input).2 = st := by
  unfold update at *
  cases hg : storeGet st (buildPK clinicId patientId) (buildSK studyDate noteId) with
  | none => simp [hg]
  | some item =>
    simp only [hg] at h ⊢
    by_cases hd : item.deletedAt.isSome
    · simp [hd]
    · by_cases hv : item.version = input.version
      · simp [hd, hv] at h
      · simp [hd, hv]

/-- Success path of `update`: condition holds, the assembled `SET` clause is
applied. -/
theorem update_success_eq (st : Store)
    (clinicId patientId noteId studyDate userId username now : String)
    (input : UpdateNoteInput) (item : NoteItem)
    (hg : storeGet st (buildPK clinicId patientId) (buildSK studyDate noteId) = some item)
    (hd : item.deletedAt = none) (hv : item.version = input.version) :
    update none st clinicId patientId noteId studyDate userId username now input =
      (.ok (itemToNote (applyUpdateExpr item now userId username input)),
        storePut st (buildPK clinicId patientId) (buildSK studyDate noteId)
          (applyUpdateExpr item now userId username input)) := by
  unfold update
  simp [hg, hd, hv]

/-! ## C1 — stale update: Conflict with both versions, NotFound when
absent/deleted, no mutation -/

/-- C1: for every note and every `update` whose `expectedVersion` differs
from the current persisted version, the store is left unchanged and the call
fails with `Conflict` carrying the expected and the current version (the
current version being what the post-failure re-read observes); if the record
is absent or soft-deleted, the call fails with `NotFound` instead (also
without mutation). -/
theorem C1_stale_update_conflict
    (st : Store) (clinicId patientId noteId studyDate userId username now : String)
    (input : UpdateNoteInput) :
    (storeGet st (buildPK clinicId patientId) (buildSK studyDate noteId) = none →
      update none st clinicId patientId noteId studyDate userId username now input =
        (.error .notFound, st)) ∧
    (∀ item t,
      storeGet st (buildPK clinicId patientId) (buildSK studyDate noteId) = some item →
      item.deletedAt = some t →
      update none st clinicId patientId noteId studyDate userId username now input =
        (.error .notFound, st)) ∧
    (∀ item,
      storeGet st (buildPK clinicId patientId) (buildSK studyDate noteId) = some item →
      item.deletedAt = none → item.version ≠ input.version →
      update none st clinicId patientId noteId studyDate userId username now input =
        (.error (.conflict input.version item.version), st)) := by
  refine ⟨fun h => ?_, fun item t h hdel => ?_, fun item h hdel hver => ?_⟩
  · unfold update
    simp [h]
  · unfold update
    simp [h, hdel]
  · unfold update
    simp [h, hdel, hver]

/-- C1 witness: concrete stale update (expected 2, current 3) conflicts and
leaves the store untouched; the same call against a soft-deleted record is
`NotFound`. -/
theorem C1_stale_update_conflict_witness :
    update none fxStore "c" "p" "n1" "2024-01-01" "u2" "U2" "T1"
        ⟨some "nt", none, none, none, none, 2⟩ =
      (.error (.conflict 2 3), fxStore) ∧
    update none fxStoreDel "c" "p" "n1" "2024-01-01" "u2" "U2" "T1"
        ⟨some "nt", none, none, none, none, 2⟩ =
      (.error .notFound, fxStoreDel) := by
  constructor
  · exact (C1_stale_update_conflict fxStore "c" "p" "n1" "2024-01-01" "u2" "U2" "T1"
      ⟨some "nt", none, none, none, none, 2⟩).2.2 fxLive (by decide) (by decide) (by decide)
  · exact (C1_stale_update_conflict fxStoreDel "c" "p" "n1" "2024-01-01" "u2" "U2" "T1"
      ⟨some "nt", none, none, none, none, 2⟩).2.1 fxDeleted "T9" (by decide) (by decide)

/-! ## C2 — version starts at 1 and increments by exactly 1 -/

theorem applyUpdateExpr_deletedAt (item : NoteItem) (now userId username : String)
    (input : UpdateNoteInput) :
    (applyUpdateExpr item now userId username input).deletedAt = item.deletedAt := rfl

theorem applyUpdateExpr_version (item : NoteItem) (now userId username : String)
    (input : UpdateNoteInput) :
    (applyUpdateExpr item now userId username input).version = item.version + 1 := rfl

theorem updateNTimes_version (input : UpdateNoteInput)
    (clinicId patientId noteId studyDate userId username now : String) :
    ∀ (k : Nat) (st : Store) (item : NoteItem),
    storeGet st (buildPK clinicId patientId) (buildSK studyDate noteId) = some item →
    item.deletedAt = none →
    ∃ item',
      storeGet (updateNTimes input clinicId patientId noteId studyDate userId username now k st)
          (buildPK clinicId patientId) (buildSK studyDate noteId) = some item' ∧
      item'.version = item.version + k ∧ item'.deletedAt = none
  | 0, st, item, h, hd => ⟨item, h, rfl, hd⟩
  | k + 1, st, item, h, hd => by
    have hsucc := update_success_eq st clinicId patientId noteId studyDate userId username now
      { input with version := item.version } item h hd rfl
    have hget : storeGet
        (update none st clinicId patientId noteId studyDate userId username now
          { input with version := item.version }).2
        (buildPK clinicId patientId) (buildSK studyDate noteId) =
        some (applyUpdateExpr item now userId username { input with version := item.version }) := by
      rw [hsucc]
      exact storeGet_storePut_self _ _ _ _
    have ih := updateNTimes_version input clinicId patientId noteId studyDate userId username now
      k _ _ hget (by rw [applyUpdateExpr_deletedAt]; exact hd)
    rcases ih with ⟨item', hget', hver', hdel'⟩
    refine ⟨item', ?_, ?_, hdel'⟩
    · rw [updateNTimes]
      simp only [h]
      exact hget'
    · rw [hver', applyUpdateExpr_version]
      omega

/-- C2: `create` persists and returns version exactly 1; every successful
`update` increments the stored and returned version by exactly 1; a failed
`update` leaves the store unchanged; and after `N` successful updates of a
freshly created note the stored version is `1 + N`. -/
theorem C2_version_lifecycle :
    (∀ (st : Store) (clinicId patientId userId username noteId now : String)
      (cin : CreateNoteInput),
      storeGet st (buildPK clinicId patientId) (buildSK cin.studyDate noteId) = none →
      ∃ note st',
        create none st clinicId patientId userId username noteId now cin = (.ok note, st') ∧
        note.version = 1 ∧
        ∃ item,
          storeGet st' (buildPK clinicId patientId) (buildSK cin.studyDate noteId) = some item ∧
          item.version = 1 ∧ item.deletedAt = none) ∧
    (∀ (st : Store) (clinicId patientId noteId studyDate userId username now : String)
      (input : UpdateNoteInput) (item : NoteItem),
      storeGet st (buildPK clinicId patientId) (buildSK studyDate noteId) = some item →
      item.deletedAt = none → item.version = input.version →
      ∃ note st',
        update none st clinicId patientId noteId studyDate userId username now input =
          (.ok note, st') ∧
        note.version = item.version + 1 ∧
        ∃ item',
          storeGet st' (buildPK clinicId patientId) (buildSK studyDate noteId) = some item' ∧
          item'.version = item.version + 1) ∧
    (∀ (st : Store) (clinicId patientId noteId studyDate userId username now : String)
      (input : UpdateNoteInput) (e : RepoError),
      (update none st clinicId patientId noteId studyDate userId username now input).1 =
        .error e →
      (update none st clinicId patientId noteId studyDate userId username now input).2 = st) ∧
    (∀ (st : Store) (clinicId patientId userId username noteId now : String)
      (cin : CreateNoteInput) (input : UpdateNoteInput)
      (userId2 username2 now2 : String) (N : Nat),
      storeGet st (buildPK clinicId patientId) (buildSK cin.studyDate noteId) = none →
      ∃ item,
        storeGet
            (updateNTimes input clinicId patientId noteId cin.studyDate userId2 username2 now2 N
              (create none st clinicId patientId userId username noteId now cin).2)
            (buildPK clinicId patientId) (buildSK cin.studyDate noteId) = some item ∧
        item.version = 1 + N) := by
  have hcreate :
      ∀ (st : Store) (clinicId patientId userId username noteId now : String)
        (cin : CreateNoteInput),
        storeGet st (buildPK clinicId patientId) (buildSK cin.studyDate noteId) = none →
        ∃ item,
          create none st clinicId patientId userId username noteId now cin =
            (.ok (itemToNote item),
              storePut st (buildPK clinicId patientId) (buildSK cin.studyDate noteId) item) ∧
          item.version = 1 ∧ item.deletedAt = none := by
    intro st clinicId patientId userId username noteId now cin h
    unfold create
    simp only [h]
    exact ⟨_, rfl, rfl, rfl⟩
  refine ⟨?_, ?_, ?_, ?_⟩
  · intro st clinicId patientId userId username noteId now cin h
    rcases hcreate st clinicId patientId userId username noteId now cin h with ⟨item, heq, hv, hd⟩
    exact ⟨itemToNote item, _, heq, hv, item, storeGet_storePut_self _ _ _ _, hv, hd⟩
  · intro st clinicId patientId noteId studyDate userId username now input item h hd hv
    have hsucc := update_success_eq st clinicId patientId noteId studyDate userId username now
      input item h hd hv
    refine ⟨_, _, hsucc, rfl, applyUpdateExpr item now userId username input,
      storeGet_storePut_self _ _ _ _, rfl⟩
  · intro st clinicId patientId noteId studyDate userId username now input e h
    exact update_fail_no_mutation st clinicId patientId noteId studyDate userId username now
      input e h
  · intro st clinicId patientId userId username noteId now cin input userId2 username2 now2 N h
    rcases hcreate st clinicId patientId userId username noteId now cin h with ⟨item, heq, hv, hd⟩
    have hget : storeGet (create none st clinicId patientId userId username noteId now cin).2
        (buildPK clinicId patientId) (buildSK cin.studyDate noteId) = some item := by
      rw [heq]
      exact storeGet_storePut_self _ _ _ _
    rcases updateNTimes_version input clinicId patientId noteId cin.studyDate userId2 username2
        now2 N _ item hget hd with ⟨item', hget', hver', _⟩
    exact ⟨item', hget', by rw [hver', hv]⟩

/-- C2 witness: creating on the empty store yields version 1, two successful
updates bring the stored version to 3, and a failed (stale) update leaves the
store unchanged. -/
theorem C2_version_lifecycle_witness :
    (∃ note st',
      create none [] "c" "p" "u" "U" "n1" "T0"
          ⟨"2024-01-01", "t", "x", none, none, none⟩ = (.ok note, st') ∧
      note.version = 1 ∧
      ∃ item,
        storeGet st' (buildPK "c" "p") (buildSK "2024-01-01" "n1") = some item ∧
        item.version = 1 ∧ item.deletedAt = none) ∧
    (∃ item,
      storeGet
          (updateNTimes ⟨some "t2", none, none, none, none, 0⟩ "c" "p" "n1" "2024-01-01"
            "u2" "U2" "T1" 2
            (create none [] "c" "p" "u" "U" "n1" "T0"
              ⟨"2024-01-01", "t", "x", none, none, none⟩).2)
          (buildPK "c" "p") (buildSK "2024-01-01" "n1") = some item ∧
      item.version = 1 + 2) ∧
    (update none fxStore "c" "p" "n1" "2024-01-01" "u2" "U2" "T1"
        ⟨some "nt", none, none, none, none, 2⟩).2 = fxStore := by
  refine ⟨?_, ?_, ?_⟩
  · exact C2_version_lifecycle.1 [] "c" "p" "u" "U" "n1" "T0"
      ⟨"2024-01-01", "t", "x", none, none, none⟩ (by decide)
  · have h := C2_version_lifecycle.2.2.2 [] "c" "p" "u" "U" "n1" "T0"
      ⟨"2024-01-01", "t", "x", none, none, none⟩
      ⟨some "t2", none, none, none, none, 0⟩ "u2" "U2" "T1" 2 (by decide)
    simpa using h
  · exact C2_version_lifecycle.2.2.1 fxStore "c" "p" "n1" "2024-01-01" "u2" "U2" "T1"
      ⟨some "nt", none, none, none, none, 2⟩ (.conflict 2 3) rfl

/-! ## C3 — soft delete is a read-side filter -/

theorem itemToNote_deletedAt (item : NoteItem) :
    (itemToNote item).deletedAt = item.deletedAt := rfl

theorem mem_list_items_deletedAt_none (st : Store) (clinicId patientId : String)
    (opts : ListNotesOptions) (note : Note)
    (hmem : note ∈ (list st clinicId patientId opts).items) :
    note.deletedAt = none := by
  simp only [list] at hmem
  rcases List.mem_map.1 hmem with ⟨e, he, rfl⟩
  have he2 : e ∈ queryItems st (buildPK clinicId patientId) opts := by
    by_cases hc : (queryItems st (buildPK clinicId patientId) opts).length > opts.limit
    · rw [if_pos hc] at he
      exact List.dropLast_subset _ he
    · rw [if_neg hc] at he
      exact he
  have hfilter := (List.mem_filter.1 he2).2
  have : e.item.deletedAt.isNone = true := by
    simp only [itemLiveFilter, Bool.and_eq_true] at hfilter
    exact hfilter.1
  rw [itemToNote_deletedAt]
  exact Option.isNone_iff_eq_none.1 this

/-- C3: a soft-deleted note is invisible to `findById`, never appears in
`list` results, and a second `softDelete` fails with `NotFound` — yet the
record still physically exists in the store with `deletedAt` set, untouched
by the failed attempt. -/
theorem C3_soft_delete_is_filter
    (st : Store) (clinicId patientId noteId studyDate : String)
    (opts : ListNotesOptions) (userId now : String) (item : NoteItem) (t : String)
    (hget : storeGet st (buildPK clinicId patientId) (buildSK studyDate noteId) = some item)
    (hdel : item.deletedAt = some t) :
    findById st clinicId patientId noteId studyDate = none ∧
    itemToNote item ∉ (list st clinicId patientId opts).items ∧
    softDelete st clinicId patientId noteId studyDate userId now = (.error .notFound, st) ∧
    storeGet (softDelete st clinicId patientId noteId studyDate userId now).2
        (buildPK clinicId patientId) (buildSK studyDate noteId) = some item ∧
    item.deletedAt = some t := by
  have hsd : softDelete st clinicId patientId noteId studyDate userId now =
      (.error .notFound, st) := by
    unfold softDelete
    simp [hget, hdel]
  refine ⟨?_, ?_, hsd, ?_, hdel⟩
  · unfold findById
    simp [hget, hdel]
  · intro hmem
    have := mem_list_items_deletedAt_none st clinicId patientId opts _ hmem
    rw [itemToNote_deletedAt, hdel] at this
    cases this
  · rw [hsd]
    exact hget

/-- C3 witness: the soft-deleted fixture note is hidden from reads and a
repeat delete is `NotFound`, while the raw record survives. -/
theorem C3_soft_delete_is_filter_witness :
    findById fxStoreDel "c" "p" "n1" "2024-01-01" = none ∧
    itemToNote fxDeleted ∉ (list fxStoreDel "c" "p" ⟨none, 20, none, none, none⟩).items ∧
    softDelete fxStoreDel "c" "p" "n1" "2024-01-01" "u2" "T2" =
      (.error .notFound, fxStoreDel) ∧
    storeGet (softDelete fxStoreDel "c" "p" "n1" "2024-01-01" "u2" "T2").2
        (buildPK "c" "p") (buildSK "2024-01-01" "n1") = some fxDeleted ∧
    fxDeleted.deletedAt = some "T9" :=
  C3_soft_delete_is_filter fxStoreDel "c" "p" "n1" "2024-01-01"
    ⟨none, 20, none, none, none⟩ "u2" "T2" fxDeleted "T9" (by decide) (by decide)

/-! ## C10 — soft delete writes only the tombstone fields -/

/-- C10: a successful `softDelete` stores exactly the old item with
`deletedAt`/`deletedBy` set; `version`, `title`, `content`, `attachments`,
`studyDate`, `updatedAt` and `updatedBy` keep their prior values — in
particular the version is not incremented. -/
theorem C10_soft_delete_frame
    (st : Store) (clinicId patientId noteId studyDate userId now : String)
    (item : NoteItem)
    (hget : storeGet st (buildPK clinicId patientId) (buildSK studyDate noteId) = some item)
    (hdel : item.deletedAt = none) :
    softDelete st clinicId patientId noteId studyDate userId now =
      (.ok (), storePut st (buildPK clinicId patientId) (buildSK studyDate noteId)
        { item with deletedAt := some now, deletedBy := some userId }) ∧
    ∃ item',
      storeGet (softDelete st clinicId patientId noteId studyDate userId now).2
          (buildPK clinicId patientId) (buildSK studyDate noteId) = some item' ∧
      item' = { item with deletedAt := some now, deletedBy := some userId } ∧
      item'.version = item.version ∧ item'.title = item.title ∧
      item'.content = item.content ∧ item'.attachments = item.attachments ∧
      item'.studyDate = item.studyDate ∧ item'.updatedAt = item.updatedAt ∧
      item'.updatedBy = item.updatedBy ∧ item'.deletedAt = some now ∧
      item'.deletedBy = some userId := by
  have hsd : softDelete st clinicId patientId noteId studyDate userId now =
      (.ok (), storePut st (buildPK clinicId patientId) (buildSK studyDate noteId)
        { item with deletedAt := some now, deletedBy := some userId }) := by
    unfold softDelete
    simp [hget, hdel]
  refine ⟨hsd, { item with deletedAt := some now, deletedBy := some userId }, ?_,
    rfl, rfl, rfl, rfl, rfl, rfl, rfl, rfl, rfl, rfl⟩
  rw [hsd]
  exact storeGet_storePut_self _ _ _ _

/-- C10 witness: soft-deleting the live fixture note only adds the tombstone
fields. -/
theorem C10_soft_delete_frame_witness :
    softDelete fxStore "c" "p" "n1" "2024-01-01" "u2" "T2" =
      (.ok (), storePut fxStore (buildPK "c" "p") (buildSK "2024-01-01" "n1")
        { fxLive with deletedAt := some "T2", deletedBy := some "u2" }) ∧
    ∃ item',
      storeGet (softDelete fxStore "c" "p" "n1" "2024-01-01" "u2" "T2").2
          (buildPK "c" "p") (buildSK "2024-01-01" "n1") = some item' ∧
      item' = { fxLive with deletedAt := some "T2", deletedBy := some "u2" } ∧
      item'.version = fxLive.version ∧ item'.title = fxLive.title ∧
      item'.content = fxLive.content ∧ item'.attachments = fxLive.attachments ∧
      item'.studyDate = fxLive.studyDate ∧ item'.updatedAt = fxLive.updatedAt ∧
      item'.updatedBy = fxLive.updatedBy ∧ item'.deletedAt = some "T2" ∧
      item'.deletedBy = some "u2" :=
  C10_soft_delete_frame fxStore "c" "p" "n1" "2024-01-01" "u2" "T2" fxLive
    (by decide) (by decide)

/-! ## C4 — tenant isolation of list, cursor or no cursor -/

theorem mem_queryItems_pk (st : Store) (pk : String) (opts : ListNotesOptions)
    (e : StoreEntry) (he : e ∈ queryItems st pk opts) : e.pk = pk := by
  have h1 : e ∈ queryRaw st pk opts := (List.mem_filter.1 he).1
  unfold queryRaw at h1
  have h2 := List.take_subset _ _ h1
  have h3 : e ∈ List.insertionSort skDescRel
      (st.filter fun e => decide (e.pk = pk) && keyCondSK opts e.sk) := by
    rcases hc : (opts.cursor.bind decodeCursor) with _ | ck
    · rw [hc] at h2
      exact h2
    · rw [hc] at h2
      exact (List.mem_filter.1 h2).1
  have h4 : e ∈ st.filter fun e => decide (e.pk = pk) && keyCondSK opts e.sk :=
    (List.perm_insertionSort skDescRel _).subset h3
  have h5 := (List.mem_filter.1 h4).2
  simp only [Bool.and_eq_true, decide_eq_true_eq] at h5
  exact h5.1

theorem buildPK_inj_clinic (clinicA clinicB patientId : String)
    (h : buildPK clinicA patientId = buildPK clinicB patientId) :
    clinicA = clinicB := by
  unfold buildPK at h
  have hd : "CLINIC#".data ++ (clinicA.data ++ ("#PATIENT#".data ++ patientId.data)) =
      "CLINIC#".data ++ (clinicB.data ++ ("#PATIENT#".data ++ patientId.data)) := by
    have := congrArg String.data h
    simpa [String.data_append, List.append_assoc] using this
  have hmid := List.append_cancel_left hd
  have hab := List.append_cancel_right hmid
  exact congrArg String.mk hab

/-- C4: a `list` call scoped to clinic `A` and patient `P` — with any cursor
value whatsoever, forged or tampered included — only ever surfaces store
entries whose partition key is the one built from the caller-supplied
`(A, P)`; an entry stored under a different clinic `B` (same patient id) can
never be among them, because its partition key necessarily differs. -/
theorem C4_tenant_isolation
    (st : Store) (clinicA clinicB patientId : String) (opts : ListNotesOptions)
    (hBA : clinicB ≠ clinicA) :
    (∀ e ∈ queryItems st (buildPK clinicA patientId) opts,
      e.pk = buildPK clinicA patientId) ∧
    (∀ e ∈ queryItems st (buildPK clinicA patientId) opts,
      e.pk ≠ buildPK clinicB patientId) := by
  refine ⟨fun e he => mem_queryItems_pk st _ opts e he, fun e he hcontra => ?_⟩
  have hA := mem_queryItems_pk st _ opts e he
  exact hBA (buildPK_inj_clinic clinicB clinicA patientId (hcontra.symm.trans hA))

/-- C4 witness: with a forged cursor that addresses clinic `B`'s partition,
listing clinic `A` still only surfaces `A`-partition entries. -/
theorem C4_tenant_isolation_witness :
    (∀ e ∈ queryItems
        [⟨buildPK "A" "p", buildSK "2024-01-01" "n1", fxLive⟩,
         ⟨buildPK "B" "p", buildSK "2024-01-02" "n2", fxLive⟩]
        (buildPK "A" "p")
        ⟨some (encodeCursor (buildPK "B" "p") (buildSK "2024-01-09" "z")), 5,
          none, none, none⟩,
      e.pk = buildPK "A" "p") ∧
    (∀ e ∈ queryItems
        [⟨buildPK "A" "p", buildSK "2024-01-01" "n1", fxLive⟩,
         ⟨buildPK "B" "p", buildSK "2024-01-02" "n2", fxLive⟩]
        (buildPK "A" "p")
        ⟨some (encodeCursor (buildPK "B" "p") (buildSK "2024-01-09" "z")), 5,
          none, none, none⟩,
      e.pk ≠ buildPK "B" "p") :=
  C4_tenant_isolation
    [⟨buildPK "A" "p", buildSK "2024-01-01" "n1", fxLive⟩,
     ⟨buildPK "B" "p", buildSK "2024-01-02" "n2", fxLive⟩]
    "A" "B" "p"
    ⟨some (encodeCursor (buildPK "B" "p") (buildSK "2024-01-09" "z")), 5,
      none, none, none⟩
    (by decide)

/-! ## C8 — fixed-window increment semantics -/

theorem rlGet_rlPut_self (st : RLStore) (key : String × String) (v : Nat × Nat) :
    rlGet (rlPut st key v) key = some v := by
  induction st with
  | nil => simp [rlPut, rlGet]
  | cons e rest ih =>
    rcases e with ⟨k, w⟩
    by_cases h : k = key
    · simp [rlPut, rlGet, h]
    · simp only [rlPut, if_neg h]
      simp [rlGet, h, ih]

theorem incrementRateLimit_store (st : RLStore) (nowSec : Nat)
    (identifier : String) (config : RateLimitConfig) :
    (incrementRateLimit none st nowSec identifier config).2.1 =
      rlPut st
        (buildRateLimitPK identifier config.name,
          buildRateLimitSK nowSec config.windowSeconds)
        (((rlGet st (buildRateLimitPK identifier config.name,
            buildRateLimitSK nowSec config.windowSeconds)).map Prod.fst).getD 0 + 1,
          nowSec / config.windowSeconds * config.windowSeconds + config.windowSeconds + 60) :=
  rfl

theorem rlIncrN_count (identifier : String) (config : RateLimitConfig) (nowSec : Nat) :
    ∀ (k : Nat) (st : RLStore),
    ((rlGet (rlIncrN identifier config nowSec k st)
        (buildRateLimitPK identifier config.name,
          buildRateLimitSK nowSec config.windowSeconds)).map Prod.fst).getD 0 =
      ((rlGet st (buildRateLimitPK identifier config.name,
          buildRateLimitSK nowSec config.windowSeconds)).map Prod.fst).getD 0 + k
  | 0, st => rfl
  | k + 1, st => by
    rw [rlIncrN]
    rw [rlIncrN_count identifier config nowSec k _]
    rw [incrementRateLimit_store, rlGet_rlPut_self]
    simp only [Option.map_some', Option.getD_some]
    omega

/-- C8: `incrementRateLimit` adds 1 to the counter of the window containing
`now` (window boundary `floor(now / windowSeconds) * windowSeconds`, counter
defaulting to 0 when absent), returns the post-increment count, and reports
`allowed` iff `count ≤ maxRequests`; `k` increments in one window accumulate
to `k`; a window with no record yet starts over at 1.  Concretely, with
`maxRequests = 10`, `windowSeconds = 60`: the 11th increment in one window is
denied with `current = 11`, and the 1st increment of the next window is
allowed with `current = 1`. -/
theorem C8_fixed_window_increment :
    (∀ (st : RLStore) (nowSec : Nat) (identifier : String) (config : RateLimitConfig),
      (incrementRateLimit none st nowSec identifier config).1.current =
        ((rlGet st (buildRateLimitPK identifier config.name,
            buildRateLimitSK nowSec config.windowSeconds)).map Prod.fst).getD 0 + 1 ∧
      ((incrementRateLimit none st nowSec identifier config).1.allowed = true ↔
        (incrementRateLimit none st nowSec identifier config).1.current ≤
          config.maxRequests) ∧
      buildRateLimitSK nowSec config.windowSeconds =
        "WINDOW#" ++ toString (nowSec / config.windowSeconds * config.windowSeconds)) ∧
    (∀ (identifier : String) (config : RateLimitConfig) (nowSec k : Nat) (st : RLStore),
      ((rlGet (rlIncrN identifier config nowSec k st)
          (buildRateLimitPK identifier config.name,
            buildRateLimitSK nowSec config.windowSeconds)).map Prod.fst).getD 0 =
        ((rlGet st (buildRateLimitPK identifier config.name,
            buildRateLimitSK nowSec config.windowSeconds)).map Prod.fst).getD 0 + k) ∧
    (∀ (st : RLStore) (nowSec : Nat) (identifier : String) (config : RateLimitConfig),
      rlGet st (buildRateLimitPK identifier config.name,
        buildRateLimitSK nowSec config.windowSeconds) = none →
      (incrementRateLimit none st nowSec identifier config).1.current = 1 ∧
      ((incrementRateLimit none st nowSec identifier config).1.allowed = true ↔
        1 ≤ config.maxRequests)) ∧
    ((incrementRateLimit none (rlIncrN "id" ⟨"api", 10, 60⟩ 1000 10 []) 1000 "id"
        ⟨"api", 10, 60⟩).1.allowed = false ∧
      (incrementRateLimit none (rlIncrN "id" ⟨"api", 10, 60⟩ 1000 10 []) 1000 "id"
        ⟨"api", 10, 60⟩).1.current = 11 ∧
      (incrementRateLimit none
          (incrementRateLimit none (rlIncrN "id" ⟨"api", 10, 60⟩ 1000 10 []) 1000 "id"
            ⟨"api", 10, 60⟩).2.1 1020 "id" ⟨"api", 10, 60⟩).1.current = 1 ∧
      (incrementRateLimit none
          (incrementRateLimit none (rlIncrN "id" ⟨"api", 10, 60⟩ 1000 10 []) 1000 "id"
            ⟨"api", 10, 60⟩).2.1 1020 "id" ⟨"api", 10, 60⟩).1.allowed = true) := by
  refine ⟨?_, ?_, ?_, ?_⟩
  · intro st nowSec identifier config
    refine ⟨rfl, ?_, rfl⟩
    simp [incrementRateLimit]
  · intro identifier config nowSec k st
    exact rlIncrN_count identifier config nowSec k st
  · intro st nowSec identifier config h
    constructor
    · simp [incrementRateLimit, h]
    · simp [incrementRateLimit, h]
  · exact ⟨by decide, by decide, by decide, by decide⟩

/-- C8 witness: starting from the empty record set, the first increment of a
window has `current = 1` and is allowed under `maxRequests = 10`. -/
theorem C8_fixed_window_increment_witness :
    (incrementRateLimit none [] 1000 "id" ⟨"api", 10, 60⟩).1.current = 1 ∧
    ((incrementRateLimit none [] 1000 "id" ⟨"api", 10, 60⟩).1.allowed = true ↔
      1 ≤ (10 : Nat)) :=
  C8_fixed_window_increment.2.2.1 [] 1000 "id" ⟨"api", 10, 60⟩ rfl

/-! ## C9 — fail-open rate limiting vs. fail-closed note writes -/

/-- C9: a store error during rate-limit check or increment is caught,
produces `allowed = true` with `current = 0`, and is logged at `warn` (the
only log call made); the same store error during note `create` or `update`
is not swallowed and propagates to the caller. -/
theorem C9_fail_open_vs_propagate :
    (∀ (st : RLStore) (nowSec : Nat) (identifier msg : String)
      (config : RateLimitConfig),
      incrementRateLimit (some msg) st nowSec identifier config =
        ({ allowed := true, current := 0, limit := config.maxRequests,
           retryAfter := config.windowSeconds }, st, [LogLevel.warn]) ∧
      checkRateLimit (some msg) st nowSec identifier config =
        ({ allowed := true, current := 0, limit := config.maxRequests,
           retryAfter := config.windowSeconds }, [LogLevel.warn])) ∧
    (∀ (st : Store)
      (clinicId patientId noteId studyDate userId username now msg : String)
      (input : UpdateNoteInput),
      update (some msg) st clinicId patientId noteId studyDate userId username now
        input = (.error (.storeError msg), st)) ∧
    (∀ (st : Store) (clinicId patientId userId username noteId now msg : String)
      (cin : CreateNoteInput),
      create (some msg) st clinicId patientId userId username noteId now cin =
        (.error (.storeError msg), st)) :=
  ⟨fun _ _ _ _ _ => ⟨rfl, rfl⟩, fun _ _ _ _ _ _ _ _ _ _ => rfl,
    fun _ _ _ _ _ _ _ _ _ => rfl⟩

/-! ## C6 — limit+1 over-fetch paging, descending order -/

theorem charListLt_irrefl : ∀ a : List Char, charListLt a a = false
  | [] => rfl
  | x :: xs => by
    simp only [charListLt, lt_self_iff_false, if_false]
    exact charListLt_irrefl xs

theorem charListLt_trans :
    ∀ a b c : List Char,
    charListLt a b = true → charListLt b c = true → charListLt a c = true
  | [], [], _ => by simp [charListLt]
  | [], _ :: _, [] => by simp [charListLt]
  | [], _ :: _, _ :: _ => by simp [charListLt]
  | _ :: _, [], _ => by simp [charListLt]
  | _ :: _, _ :: _, [] => by simp [charListLt]
  | a :: as, b :: bs, c :: cs => by
    simp only [charListLt]
    intro hab hbc
    by_cases h1 : a.toNat < b.toNat
    · rw [if_pos h1] at hab
      by_cases h3 : b.toNat < c.toNat
      · rw [if_pos ((by omega : a.toNat < c.toNat))]
      · rw [if_neg h3] at hbc
        by_cases h4 : c.toNat < b.toNat
        · rw [if_pos h4] at hbc
          cases hbc
        · rw [if_pos ((by omega : a.toNat < c.toNat))]
    · rw [if_neg h1] at hab
      by_cases h2 : b.toNat < a.toNat
      · rw [if_pos h2] at hab
        cases hab
      · rw [if_neg h2] at hab
        by_cases h3 : b.toNat < c.toNat
        · rw [if_pos ((by omega : a.toNat < c.toNat))]
        · rw [if_neg h3] at hbc
          by_cases h4 : c.toNat < b.toNat
          · rw [if_pos h4] at hbc
            cases hbc
          · rw [if_neg h4] at hbc
            rw [if_neg ((by omega : ¬a.toNat < c.toNat)),
              if_neg ((by omega : ¬c.toNat < a.toNat))]
            exact charListLt_trans as bs cs hab hbc

theorem charListLt_ge_trans :
    ∀ a b c : List Char,
    charListLt a b = false → charListLt b c = false → charListLt a c = false
  | [], [], [] => fun _ _ => rfl
  | [], [], _ :: _ => by simp [charListLt]
  | [], _ :: _, _ => by simp [charListLt]
  | _ :: _, [], [] => by simp [charListLt]
  | _ :: _, [], _ :: _ => by simp [charListLt]
  | _ :: _, _ :: _, [] => by simp [charListLt]
  | a :: as, b :: bs, c :: cs => by
    simp only [charListLt]
    intro hab hbc
    by_cases h1 : a.toNat < b.toNat
    · rw [if_pos h1] at hab
      cases hab
    · rw [if_neg h1] at hab
      by_cases h3 : b.toNat < c.toNat
      · rw [if_pos h3] at hbc
        cases hbc
      · rw [if_neg h3] at hbc
        by_cases h2 : b.toNat < a.toNat
        · rw [if_neg ((by omega : ¬a.toNat < c.toNat)),
            if_pos ((by omega : c.toNat < a.toNat))]
        · rw [if_neg h2] at hab
          by_cases h4 : c.toNat < b.toNat
          · rw [if_pos h4] at hbc
            rw [if_neg ((by omega : ¬a.toNat < c.toNat)),
              if_pos ((by omega : c.toNat < a.toNat))]
          · rw [if_neg h4] at hbc
            rw [if_neg ((by omega : ¬a.toNat < c.toNat)),
              if_neg ((by omega : ¬c.toNat < a.toNat))]
            exact charListLt_ge_trans as bs cs hab hbc

theorem charListLt_asymm (a b : List Char) (h : charListLt a b = true) :
    charListLt b a = false := by
  rcases hba : charListLt b a with _ | _
  · rfl
  · have hcontra := charListLt_trans a b a h hba
    rw [charListLt_irrefl] at hcontra
    cases hcontra

theorem skDescRel_total (a b : StoreEntry) : skDescRel a b ∨ skDescRel b a := by
  unfold skDescRel strLeB strLtB
  rcases h : charListLt a.sk.data b.sk.data with _ | _
  · left
    simp [h]
  · right
    simp [charListLt_asymm _ _ h]

theorem skDescRel_trans (a b c : StoreEntry) (h1 : skDescRel a b)
    (h2 : skDescRel b c) : skDescRel a c := by
  unfold skDescRel strLeB strLtB at *
  simp only [Bool.not_eq_true'] at h1 h2 ⊢
  exact charListLt_ge_trans _ _ _ h1 h2

theorem queryItems_sorted (st : Store) (pk : String) (opts : ListNotesOptions) :
    List.Sorted skDescRel (queryItems st pk opts) := by
  haveI : IsTotal StoreEntry skDescRel := ⟨skDescRel_total⟩
  haveI : IsTrans StoreEntry skDescRel := ⟨fun a b c => skDescRel_trans a b c⟩
  have hsorted : List.Sorted skDescRel (List.insertionSort skDescRel
      (st.filter fun e => decide (e.pk = pk) && keyCondSK opts e.sk)) :=
    List.sorted_insertionSort skDescRel _
  unfold queryItems queryRaw
  apply List.Pairwise.sublist (List.filter_sublist _)
  apply List.Pairwise.sublist (List.take_sublist _ _)
  rcases hc : opts.cursor.bind decodeCursor with _ | ck
  · exact hsorted
  · exact List.Pairwise.sublist (List.filter_sublist _) hsorted

theorem queryItems_length_le (st : Store) (pk : String) (opts : ListNotesOptions) :
    (queryItems st pk opts).length ≤ opts.limit + 1 := by
  have h1 : (queryRaw st pk opts).length ≤ opts.limit + 1 := by
    unfold queryRaw
    exact List.length_take_le _ _
  have h2 := List.length_filter_le (fun e => itemLiveFilter opts e.item)
    (queryRaw st pk opts)
  unfold queryItems
  omega

/-- C6: `list` over-fetches `limit + 1` store items in descending sort-key
order; when all `limit + 1` survive the filter it drops the last, returns
exactly `limit` items with `hasMore = true` and a cursor built from the last
kept entry's key pair; with `limit` or fewer it returns them all with
`hasMore = false` and no cursor.  Paging 5 live notes with `limit = 2` yields
pages of 2, 2 and 1, the last with no cursor. -/
theorem C6_limit_plus_one_paging
    (st : Store) (clinicId patientId : String) (opts : ListNotesOptions) :
    (queryItems st (buildPK clinicId patientId) opts).length ≤ opts.limit + 1 ∧
    List.Sorted skDescRel (queryItems st (buildPK clinicId patientId) opts) ∧
    ((queryItems st (buildPK clinicId patientId) opts).length > opts.limit →
      (list st clinicId patientId opts).items =
        ((queryItems st (buildPK clinicId patientId) opts).dropLast.map
          fun e => itemToNote e.item) ∧
      (list st clinicId patientId opts).items.length = opts.limit ∧
      (list st clinicId patientId opts).hasMore = true ∧
      (1 ≤ opts.limit →
        ∃ lastE,
          (queryItems st (buildPK clinicId patientId) opts).dropLast.getLast? =
            some lastE ∧
          (list st clinicId patientId opts).nextCursor =
            some (encodeCursor lastE.pk lastE.sk))) ∧
    ((queryItems st (buildPK clinicId patientId) opts).length ≤ opts.limit →
      (list st clinicId patientId opts).items =
        ((queryItems st (buildPK clinicId patientId) opts).map
          fun e => itemToNote e.item) ∧
      (list st clinicId patientId opts).hasMore = false ∧
      (list st clinicId patientId opts).nextCursor = none) ∧
    (fxPage1.items.length = 2 ∧ fxPage1.hasMore = true ∧
      fxPage1.nextCursor.isSome = true ∧
      fxPage2.items.length = 2 ∧ fxPage2.hasMore = true ∧
      fxPage2.nextCursor.isSome = true ∧
      fxPage3.items.length = 1 ∧ fxPage3.hasMore = false ∧
      fxPage3.nextCursor = none ∧
      (fxPage1.items ++ fxPage2.items ++ fxPage3.items).map Note.noteId =
        ["n5", "n4", "n3", "n2", "n1"]) := by
  refine ⟨queryItems_length_le st _ opts, queryItems_sorted st _ opts, ?_, ?_, by decide⟩
  · intro hlong
    have hle := queryItems_length_le st (buildPK clinicId patientId) opts
    have hlen : (queryItems st (buildPK clinicId patientId) opts).length =
        opts.limit + 1 := by omega
    have hitems : (list st clinicId patientId opts).items =
        ((queryItems st (buildPK clinicId patientId) opts).dropLast.map
          fun e => itemToNote e.item) := by
      simp only [list]
      rw [if_pos hlong]
    refine ⟨hitems, ?_, ?_, ?_⟩
    · rw [hitems, List.length_map, List.length_dropLast, hlen]
      omega
    · simp only [list]
      exact decide_eq_true hlong
    · intro hpos
      have hne : (queryItems st (buildPK clinicId patientId) opts).dropLast ≠ [] := by
        intro hnil
        have := congrArg List.length hnil
        rw [List.length_dropLast, hlen] at this
        simp at this
        omega
      rcases hgl : (queryItems st (buildPK clinicId patientId) opts).dropLast.getLast?
          with _ | lastE
      · rw [List.getLast?_eq_none_iff] at hgl
        exact absurd hgl hne
      · refine ⟨lastE, rfl, ?_⟩
        simp only [list]
        rw [if_pos hlong, if_pos ⟨hlong, hne⟩, hgl]
  · intro hshort
    have h1 : ¬ (queryItems st (buildPK clinicId patientId) opts).length > opts.limit := by
      omega
    refine ⟨?_, ?_, ?_⟩
    · simp only [list]
      rw [if_neg h1]
    · simp only [list]
      exact decide_eq_false h1
    · simp only [list]
      rw [if_neg h1, if_neg (by simp [h1])]

/-- C6 witness: the first concrete page over the five fixture notes follows
the long-page shape established by the theorem: exactly 2 items and
`hasMore = true`. -/
theorem C6_limit_plus_one_paging_witness :
    fxPage1.items.length = 2 ∧ fxPage1.hasMore = true := by
  have h := C6_limit_plus_one_paging fx5Store "c" "p" ⟨none, 2, none, none, none⟩
  exact ⟨(h.2.2.1 (by decide)).2.1, (h.2.2.1 (by decide)).2.2.1⟩

/-! ## C7 — partial update frame: which input fields are written -/

/-- C7 counterexample: an update whose input carries `noteType` and `tags`
succeeds, yet the stored record keeps its old `noteType` and `tags` — the
repository never writes those two fields, contradicting the claim that every
field present in the input is written. -/
theorem C7_noteType_tags_ignored_counterexample :
    (update none fxStore "c" "p" "n1" "2024-01-01" "u2" "U2" "T1"
        ⟨none, none, some "radiology", some ["updated"], none, 3⟩).1 =
      .ok (itemToNote fxUpdated) ∧
    storeGet
        (update none fxStore "c" "p" "n1" "2024-01-01" "u2" "U2" "T1"
          ⟨none, none, some "radiology", some ["updated"], none, 3⟩).2
        (buildPK "c" "p") (buildSK "2024-01-01" "n1") =
      some fxUpdated ∧
    fxUpdated.noteType = some "clinical" ∧
    some "clinical" ≠ some "radiology" ∧
    fxUpdated.tags = ["sleep"] ∧
    ["sleep"] ≠ ["updated"] := by
  refine ⟨rfl, by decide, rfl, by decide, rfl, by decide⟩

/-- C7 (amended): on a successful update, exactly the `title`, `content` and
`attachments` fields present in the input are written (plus `version`,
`updatedAt`, `updatedBy`, `updatedByName`); fields absent from the input keep
their prior values, and `noteType` and `tags` keep their prior values even
when present in the input — the repository ignores them. -/
theorem C7_partial_update_frame
    (st : Store) (clinicId patientId noteId studyDate userId username now : String)
    (input : UpdateNoteInput) (item : NoteItem)
    (hget : storeGet st (buildPK clinicId patientId) (buildSK studyDate noteId) = some item)
    (hdel : item.deletedAt = none) (hv : item.version = input.version) :
    ∃ item',
      update none st clinicId patientId noteId studyDate userId username now input =
        (.ok (itemToNote item'),
          storePut st (buildPK clinicId patientId) (buildSK studyDate noteId) item') ∧
      storeGet
          (update none st clinicId patientId noteId studyDate userId username now input).2
          (buildPK clinicId patientId) (buildSK studyDate noteId) = some item' ∧
      item'.title = input.title.getD item.title ∧
      item'.content = input.content.getD item.content ∧
      item'.attachments = input.attachments.getD item.attachments ∧
      item'.noteType = item.noteType ∧
      item'.tags = item.tags ∧
      item'.version = item.version + 1 ∧
      item'.updatedAt = now ∧
      item'.updatedBy = userId ∧
      item'.updatedByName = username ∧
      item'.noteId = item.noteId ∧
      item'.clinicId = item.clinicId ∧
      item'.patientId = item.patientId ∧
      item'.studyDate = item.studyDate ∧
      item'.createdAt = item.createdAt ∧
      item'.createdBy = item.createdBy ∧
      item'.createdByName = item.createdByName ∧
      item'.deletedAt = item.deletedAt ∧
      item'.deletedBy = item.deletedBy ∧
      item'.entityType = item.entityType := by
  have hsucc := update_success_eq st clinicId patientId noteId studyDate userId username now
    input item hget hdel hv
  refine ⟨applyUpdateExpr item now userId username input, hsucc, ?_, rfl, rfl, rfl, rfl,
    rfl, rfl, rfl, rfl, rfl, rfl, rfl, rfl, rfl, rfl, rfl, rfl, rfl, rfl, rfl⟩
  rw [hsucc]
  exact storeGet_storePut_self _ _ _ _

/-- C7 witness: concrete successful update writing `title` only; `content`,
`attachments`, `noteType` and `tags` keep their stored values. -/
theorem C7_partial_update_frame_witness :
    ∃ item',
      update none fxStore "c" "p" "n1" "2024-01-01" "u2" "U2" "T1"
          ⟨some "new title", none, some "radiology", some ["updated"], none, 3⟩ =
        (.ok (itemToNote item'),
          storePut fxStore (buildPK "c" "p") (buildSK "2024-01-01" "n1") item') ∧
      storeGet
          (update none fxStore "c" "p" "n1" "2024-01-01" "u2" "U2" "T1"
            ⟨some "new title", none, some "radiology", some ["updated"], none, 3⟩).2
          (buildPK "c" "p") (buildSK "2024-01-01" "n1") = some item' ∧
      item'.title = (some "new title").getD fxLive.title ∧
      item'.content = Option.getD none fxLive.content ∧
      item'.attachments = Option.getD none fxLive.attachments ∧
      item'.noteType = fxLive.noteType ∧
      item'.tags = fxLive.tags ∧
      item'.version = fxLive.version + 1 ∧
      item'.updatedAt = "T1" ∧
      item'.updatedBy = "u2" ∧
      item'.updatedByName = "U2" ∧
      item'.noteId = fxLive.noteId ∧
      item'.clinicId = fxLive.clinicId ∧
      item'.patientId = fxLive.patientId ∧
      item'.studyDate = fxLive.studyDate ∧
      item'.createdAt = fxLive.createdAt ∧
      item'.createdBy = fxLive.createdBy ∧
      item'.createdByName = fxLive.createdByName ∧
      item'.deletedAt = fxLive.deletedAt ∧
      item'.deletedBy = fxLive.deletedBy ∧
      item'.entityType = fxLive.entityType :=
  C7_partial_update_frame fxStore "c" "p" "n1" "2024-01-01" "u2" "U2" "T1"
    ⟨some "new title", none, some "radiology", some ["updated"], none, 3⟩ fxLive
    (by decide) (by decide) (by decide)

/-! ## C5 — cursor codec: round trip and total validating decode -/

theorem charOfNat_toNat (c : Char) : Char.ofNat c.toNat = c := by
  rcases c with ⟨⟨⟨n, hn⟩⟩, hv⟩
  simp only [Char.ofNat, Char.toNat]
  rw [dif_pos hv]
  rfl

theorem charToNat_ofNat {n : Nat} (h : n.isValidChar) : (Char.ofNat n).toNat = n := by
  simp only [Char.ofNat]
  rw [dif_pos h]
  rfl

theorem charToNat_valid (c : Char) : c.toNat.isValidChar := c.valid

theorem utf8DecodeF_encodeChar (fuel : Nat) (c : Char) (rest : List Nat) :
    utf8DecodeF (fuel + 1) (utf8EncodeChar c.toNat ++ rest) =
      c :: utf8DecodeF fuel rest := by
  have hval : c.toNat.isValidChar := charToNat_valid c
  have hofnat := charOfNat_toNat c
  have hlt : c.toNat < 1114112 := by
    rcases hval with h | ⟨h1, h2⟩ <;> omega
  by_cases h1 : c.toNat < 128
  · simp only [utf8EncodeChar, if_pos h1, List.cons_append, List.nil_append]
    simp only [utf8DecodeF]
    rw [if_pos h1, hofnat]
  · by_cases h2 : c.toNat < 2048
    · simp only [utf8EncodeChar, if_neg h1, if_pos h2, List.cons_append, List.nil_append]
      simp only [utf8DecodeF]
      rw [if_neg (by omega), if_neg (by omega), if_pos (by omega),
        if_pos (by omega : 128 ≤ 128 + c.toNat % 64 ∧ 128 + c.toNat % 64 < 192)]
      have harg : (192 + c.toNat / 64 - 192) * 64 + (128 + c.toNat % 64 - 128) =
          c.toNat := by omega
      rw [harg, hofnat]
    · by_cases h3 : c.toNat < 65536
      · simp only [utf8EncodeChar, if_neg h1, if_neg h2, if_pos h3, List.cons_append,
          List.nil_append]
        simp only [utf8DecodeF]
        rw [if_neg (by omega), if_neg (by omega), if_neg (by omega), if_pos (by omega),
          if_pos (by constructor <;> omega)]
        have harg : (224 + c.toNat / 4096 - 224) * 4096 +
            (128 + c.toNat / 64 % 64 - 128) * 64 + (128 + c.toNat % 64 - 128) =
            c.toNat := by omega
        rw [harg, hofnat]
      · simp only [utf8EncodeChar, if_neg h1, if_neg h2, if_neg h3, List.cons_append,
          List.nil_append]
        simp only [utf8DecodeF]
        rw [if_neg (by omega), if_neg (by omega), if_neg (by omega), if_neg (by omega),
          if_pos (by omega), if_pos (by refine ⟨⟨?_, ?_⟩, ⟨?_, ?_⟩, ?_, ?_⟩ <;> omega)]
        have harg : (240 + c.toNat / 262144 - 240) * 262144 +
            (128 + c.toNat / 4096 % 64 - 128) * 4096 +
            (128 + c.toNat / 64 % 64 - 128) * 64 + (128 + c.toNat % 64 - 128) =
            c.toNat := by omega
        rw [harg, hofnat]

theorem utf8DecodeF_nil (fuel : Nat) : utf8DecodeF fuel [] = [] := by
  cases fuel <;> rfl

theorem utf8DecodeF_encode : ∀ (cs : List Char) (f : Nat),
    utf8DecodeF (cs.length + f) (utf8Encode cs) = cs
  | [], f => by
    simp [utf8Encode, utf8DecodeF_nil]
  | c :: cs', f => by
    have hlen : (c :: cs').length + f = (cs'.length + f) + 1 := by
      simp [List.length_cons]
      omega
    rw [hlen]
    show utf8DecodeF ((cs'.length + f) + 1) (utf8EncodeChar c.toNat ++ utf8Encode cs') = _
    rw [utf8DecodeF_encodeChar]
    rw [utf8DecodeF_encode cs' f]

theorem utf8EncodeChar_length_pos (n : Nat) : 1 ≤ (utf8EncodeChar n).length := by
  unfold utf8EncodeChar
  split_ifs <;> simp

theorem utf8Encode_length_ge : ∀ cs : List Char, cs.length ≤ (utf8Encode cs).length
  | [] => Nat.le_refl _
  | c :: cs' => by
    simp only [utf8Encode, List.length_append, List.length_cons]
    have h1 := utf8EncodeChar_length_pos c.toNat
    have h2 := utf8Encode_length_ge cs'
    omega

theorem utf8Decode_utf8Encode (cs : List Char) : utf8Decode (utf8Encode cs) = cs := by
  unfold utf8Decode
  have h := utf8Encode_length_ge cs
  have hlen : (utf8Encode cs).length = cs.length + ((utf8Encode cs).length - cs.length) := by
    omega
  rw [hlen]
  exact utf8DecodeF_encode cs _

theorem utf8EncodeChar_lt_256 (n : Nat) (hn : n < 1114112) :
    ∀ b ∈ utf8EncodeChar n, b < 256 := by
  unfold utf8EncodeChar
  split_ifs <;> intro b hb <;> simp only [List.mem_cons, List.not_mem_nil, or_false] at hb <;>
    omega

theorem utf8Encode_lt_256 : ∀ (cs : List Char), ∀ b ∈ utf8Encode cs, b < 256
  | [] => by simp [utf8Encode]
  | c :: cs' => by
    intro b hb
    simp only [utf8Encode, List.mem_append] at hb
    rcases hb with hb | hb
    · have hlt : c.toNat < 1114112 := by
        rcases charToNat_valid c with h | ⟨h1, h2⟩ <;> omega
      exact utf8EncodeChar_lt_256 c.toNat hlt b hb
    · exact utf8Encode_lt_256 cs' b hb

theorem b64Code_lt_128 (n : Nat) : b64Code n < 128 := by
  unfold b64Code
  split_ifs <;> omega

theorem b64Val_b64Char (n : Nat) (h : n < 64) : b64Val (b64Char n) = some n := by
  have hcode : (b64Char n).toNat = b64Code n :=
    charToNat_ofNat (Or.inl (by have := b64Code_lt_128 n; omega))
  unfold b64Val
  simp only [hcode]
  unfold b64Code
  split_ifs <;>
    first
      | omega
      | (simp only [Option.some.injEq]; omega)

theorem filterMap_b64Val_b64Char (n : Nat) (h : n < 64) (rest : List Char) :
    (b64Char n :: rest).filterMap b64Val = n :: rest.filterMap b64Val := by
  rw [List.filterMap_cons, b64Val_b64Char n h]

theorem b64_roundtrip : ∀ bs : List Nat, (∀ b ∈ bs, b < 256) →
    b64decodeChars (b64encodeBytes bs) = bs
  | [], _ => rfl
  | [a], h => by
    have ha : a < 256 := h a (by simp)
    unfold b64decodeChars b64encodeBytes
    rw [filterMap_b64Val_b64Char _ (by omega), filterMap_b64Val_b64Char _ (by omega)]
    simp only [List.filterMap_nil, b64decodeVals]
    have : a / 4 * 4 + a % 4 * 16 / 16 = a := by omega
    rw [this]
  | [a, b], h => by
    have ha : a < 256 := h a (by simp)
    have hb : b < 256 := h b (by simp)
    unfold b64decodeChars b64encodeBytes
    rw [filterMap_b64Val_b64Char _ (by omega), filterMap_b64Val_b64Char _ (by omega),
      filterMap_b64Val_b64Char _ (by omega)]
    simp only [List.filterMap_nil, b64decodeVals]
    have h1 : a / 4 * 4 + (a % 4 * 16 + b / 16) / 16 = a := by omega
    have h2 : (a % 4 * 16 + b / 16) % 16 * 16 + b % 16 * 4 / 4 = b := by omega
    rw [h1, h2]
  | a :: b :: c :: rest, h => by
    have ha : a < 256 := h a (by simp)
    have hb : b < 256 := h b (by simp)
    have hc : c < 256 := h c (by simp)
    have hrec := b64_roundtrip rest (fun x hx => h x (by simp [hx]))
    unfold b64decodeChars at hrec ⊢
    show b64decodeVals ((b64Char (a / 4) :: b64Char (a % 4 * 16 + b / 16) ::
        b64Char (b % 16 * 4 + c / 64) :: b64Char (c % 64) :: b64encodeBytes rest).filterMap
          b64Val) = _
    rw [filterMap_b64Val_b64Char _ (by omega), filterMap_b64Val_b64Char _ (by omega),
      filterMap_b64Val_b64Char _ (by omega), filterMap_b64Val_b64Char _ (by omega)]
    rw [b64decodeVals]
    have h1 : a / 4 * 4 + (a % 4 * 16 + b / 16) / 16 = a := by omega
    have h2 : (a % 4 * 16 + b / 16) % 16 * 16 + (b % 16 * 4 + c / 64) / 4 = b := by omega
    have h3 : (b % 16 * 4 + c / 64) % 4 * 64 + c % 64 = c := by omega
    rw [h1, h2, h3, hrec]

theorem hexVal_hexDigitChar (n : Nat) (h : n < 16) : hexVal (hexDigitChar n) = some n := by
  have hcode : (hexDigitChar n).toNat = if n < 10 then 48 + n else 87 + n :=
    charToNat_ofNat (Or.inl (by split_ifs <;> omega))
  unfold hexVal
  simp only [hcode]
  split_ifs <;>
    first
      | omega
      | (simp only [Option.some.injEq]; omega)

theorem escChar_length_pos (c : Char) : 1 ≤ (escChar c).length := by
  unfold escChar
  split_ifs <;> simp

theorem escapeChars_length_ge : ∀ s : List Char, s.length ≤ (escapeChars s).length
  | [] => Nat.le_refl _
  | c :: s' => by
    simp only [escapeChars, List.length_append, List.length_cons]
    have h1 := escChar_length_pos c
    have h2 := escapeChars_length_ge s'
    omega

theorem parseStrBodyF_quote (fuel : Nat) (cs : List Char) :
    parseStrBodyF (fuel + 1) ('"' :: cs) = some ([], cs) := by
  simp [parseStrBodyF]

theorem parseStrBodyF_plain (fuel : Nat) (c : Char) (cs : List Char)
    (hq : c ≠ '"') (hbk : c ≠ '\\') (hge : 32 ≤ c.toNat) :
    parseStrBodyF (fuel + 1) (c :: cs) =
      match parseStrBodyF fuel cs with
      | some (s, r) => some (c :: s, r)
      | none => none := by
  simp only [parseStrBodyF]
  rw [if_neg hq, if_neg hbk, if_neg (by omega)]

theorem parseStrBodyF_esc (fuel : Nat) (e : Char) (cs : List Char) (d : Char)
    (hu : e ≠ 'u') (hd : escMapChar e = some d) :
    parseStrBodyF (fuel + 1) ('\\' :: e :: cs) =
      match parseStrBodyF fuel cs with
      | some (s, r) => some (d :: s, r)
      | none => none := by
  simp only [parseStrBodyF, if_true]
  rw [if_neg hu, hd, if_neg (show ¬('\\' = '"') from by decide)]

theorem parseStrBodyF_hex (fuel : Nat) (h1 h2 h3 h4 : Char) (cs : List Char)
    (v1 v2 v3 v4 : Nat) (hv1 : hexVal h1 = some v1) (hv2 : hexVal h2 = some v2)
    (hv3 : hexVal h3 = some v3) (hv4 : hexVal h4 = some v4) :
    parseStrBodyF (fuel + 1) ('\\' :: 'u' :: h1 :: h2 :: h3 :: h4 :: cs) =
      match parseStrBodyF fuel cs with
      | some (s, r) =>
        some (Char.ofNat (((v1 * 16 + v2) * 16 + v3) * 16 + v4) :: s, r)
      | none => none := by
  simp only [parseStrBodyF, if_true]
  rw [hv1, hv2, hv3, hv4, if_neg (show ¬('\\' = '"') from by decide)]

theorem parseStrBodyF_escape : ∀ (s : List Char) (f : Nat) (rest : List Char),
    parseStrBodyF (s.length + f + 1) (escapeChars s ++ '"' :: rest) = some (s, rest)
  | [], f, rest => by
    simp only [escapeChars, List.nil_append, List.length_nil, Nat.zero_add]
    exact parseStrBodyF_quote f rest
  | c :: s', f, rest => by
    have hlen : (c :: s').length + f + 1 = (s'.length + f + 1) + 1 := by
      simp only [List.length_cons]
      omega
    rw [hlen]
    simp only [escapeChars]
    rw [List.append_assoc]
    have hrec := parseStrBodyF_escape s' f rest
    by_cases hq : c = '"'
    · subst hq
      rw [show escChar '"' = ['\\', '"'] from rfl]
      simp only [List.cons_append, List.nil_append]
      rw [parseStrBodyF_esc _ '"' _ '"' (by decide) rfl, hrec]
    · by_cases hbk : c = '\\'
      · subst hbk
        rw [show escChar '\\' = ['\\', '\\'] from rfl]
        simp only [List.cons_append, List.nil_append]
        rw [parseStrBodyF_esc _ '\\' _ '\\' (by decide) rfl, hrec]
      · by_cases hge : 32 ≤ c.toNat
        · have hesc : escChar c = [c] := by
            unfold escChar
            rw [if_neg hq, if_neg hbk, if_pos hge]
          rw [hesc]
          simp only [List.cons_append, List.nil_append]
          rw [parseStrBodyF_plain _ _ _ hq hbk hge, hrec]
        · by_cases h8 : c.toNat = 8
          · have hesc : escChar c = ['\\', 'b'] := by
              unfold escChar
              rw [if_neg hq, if_neg hbk, if_neg hge, if_pos h8]
            rw [hesc]
            simp only [List.cons_append, List.nil_append]
            rw [parseStrBodyF_esc _ 'b' _ (Char.ofNat 8) (by decide) rfl, hrec,
              show Char.ofNat 8 = c from h8 ▸ charOfNat_toNat c]
          · by_cases h9 : c.toNat = 9
            · have hesc : escChar c = ['\\', 't'] := by
                unfold escChar
                rw [if_neg hq, if_neg hbk, if_neg hge, if_neg (by omega), if_pos h9]
              rw [hesc]
              simp only [List.cons_append, List.nil_append]
              rw [parseStrBodyF_esc _ 't' _ (Char.ofNat 9) (by decide) rfl, hrec,
                show Char.ofNat 9 = c from h9 ▸ charOfNat_toNat c]
            · by_cases h10 : c.toNat = 10
              · have hesc : escChar c = ['\\', 'n'] := by
                  unfold escChar
                  rw [if_neg hq, if_neg hbk, if_neg hge, if_neg (by omega),
                    if_neg (by omega), if_pos h10]
                rw [hesc]
                simp only [List.cons_append, List.nil_append]
                rw [parseStrBodyF_esc _ 'n' _ (Char.ofNat 10) (by decide) rfl, hrec,
                  show Char.ofNat 10 = c from h10 ▸ charOfNat_toNat c]
              · by_cases h12 : c.toNat = 12
                · have hesc : escChar c = ['\\', 'f'] := by
                    unfold escChar
                    rw [if_neg hq, if_neg hbk, if_neg hge, if_neg (by omega),
                      if_neg (by omega), if_neg (by omega), if_pos h12]
                  rw [hesc]
                  simp only [List.cons_append, List.nil_append]
                  rw [parseStrBodyF_esc _ 'f' _ (Char.ofNat 12) (by decide) rfl, hrec,
                    show Char.ofNat 12 = c from h12 ▸ charOfNat_toNat c]
                · by_cases h13 : c.toNat = 13
                  · have hesc : escChar c = ['\\', 'r'] := by
                      unfold escChar
                      rw [if_neg hq, if_neg hbk, if_neg hge, if_neg (by omega),
                        if_neg (by omega), if_neg (by omega), if_neg (by omega),
                        if_pos h13]
                    rw [hesc]
                    simp only [List.cons_append, List.nil_append]
                    rw [parseStrBodyF_esc _ 'r' _ (Char.ofNat 13) (by decide) rfl, hrec,
                      show Char.ofNat 13 = c from h13 ▸ charOfNat_toNat c]
                  · have hesc : escChar c = ['\\', 'u', '0', '0',
                        hexDigitChar (c.toNat / 16), hexDigitChar (c.toNat % 16)] := by
                      unfold escChar
                      rw [if_neg hq, if_neg hbk, if_neg hge, if_neg (by omega),
                        if_neg (by omega), if_neg (by omega), if_neg (by omega),
                        if_neg (by omega)]
                    rw [hesc]
                    simp only [List.cons_append, List.nil_append]
                    rw [parseStrBodyF_hex _ '0' '0' (hexDigitChar (c.toNat / 16))
                      (hexDigitChar (c.toNat % 16)) _ 0 0 (c.toNat / 16) (c.toNat % 16)
                      rfl rfl (hexVal_hexDigitChar _ (by omega))
                      (hexVal_hexDigitChar _ (by omega)), hrec]
                    have harg : ((0 * 16 + 0) * 16 + c.toNat / 16) * 16 + c.toNat % 16 =
                        c.toNat := by omega
                    rw [harg, charOfNat_toNat c]

theorem parseStrBody_escape (s rest : List Char) :
    parseStrBody (escapeChars s ++ '"' :: rest) = some (s, rest) := by
  unfold parseStrBody
  have hge := escapeChars_length_ge s
  have hlen : (escapeChars s ++ '"' :: rest).length =
      s.length + ((escapeChars s).length - s.length + rest.length) + 1 := by
    simp only [List.length_append, List.length_cons]
    omega
  rw [hlen]
  exact parseStrBodyF_escape s _ rest

theorem skipWs_nil : skipWs [] = [] := rfl

theorem skipWs_not_ws (c : Char) (l : List Char) (h : isWsChar c = false) :
    skipWs (c :: l) = c :: l := by
  simp [skipWs, h]

theorem parseMembersF_one (f : Nat) (k v : List Char) :
    parseMembersF (f + 1)
      ('"' :: (escapeChars k ++ '"' :: ':' :: '"' ::
        (escapeChars v ++ '"' :: [rbraceChar]))) =
      some [(String.mk k, String.mk v)] := by
  have hk := parseStrBody_escape k (':' :: '"' :: (escapeChars v ++ '"' :: [rbraceChar]))
  have hv2 := parseStrBody_escape v [rbraceChar]
  simp only [parseMembersF, skipWs_not_ws '"' _ (by decide),
    skipWs_not_ws ':' _ (by decide), skipWs_not_ws rbraceChar _ (by decide),
    skipWs_nil, hk, hv2]
  rw [if_neg (show ¬(rbraceChar = ',') from by decide)]
  simp

theorem parseMembersF_two (f : Nat) (k1 v1 k2 v2 : List Char) :
    parseMembersF (f + 2)
      ('"' :: (escapeChars k1 ++ '"' :: ':' :: '"' ::
        (escapeChars v1 ++ '"' :: ',' :: '"' ::
          (escapeChars k2 ++ '"' :: ':' :: '"' ::
            (escapeChars v2 ++ '"' :: [rbraceChar]))))) =
      some [(String.mk k1, String.mk v1), (String.mk k2, String.mk v2)] := by
  have hk := parseStrBody_escape k1 (':' :: '"' :: (escapeChars v1 ++ '"' :: ',' :: '"' ::
    (escapeChars k2 ++ '"' :: ':' :: '"' :: (escapeChars v2 ++ '"' :: [rbraceChar]))))
  have hv := parseStrBody_escape v1 (',' :: '"' :: (escapeChars k2 ++ '"' :: ':' :: '"' ::
    (escapeChars v2 ++ '"' :: [rbraceChar])))
  have hrec := parseMembersF_one f k2 v2
  obtain ⟨g, hg⟩ : ∃ g, g = f + 1 := ⟨f + 1, rfl⟩
  rw [← hg] at hrec
  rw [show f + 2 = g + 1 from by rw [hg]]
  simp only [parseMembersF, skipWs_not_ws '"' _ (by decide),
    skipWs_not_ws ':' _ (by decide), skipWs_not_ws ',' _ (by decide), hk, hv, hrec]
  simp

theorem parseCursorObj_cursorJson (pk sk : List Char) :
    parseCursorObj (cursorJsonChars pk sk) =
      some [(String.mk ['P', 'K'], String.mk pk), (String.mk ['S', 'K'], String.mk sk)] := by
  unfold parseCursorObj cursorJsonChars
  simp only [skipWs_not_ws lbraceChar _ (by decide), skipWs_not_ws '"' _ (by decide),
    eq_self_iff_true, if_true]
  rw [if_neg (show ¬('"' = rbraceChar) from by decide)]
  exact parseMembersF_two
    ('P' :: 'K' :: '"' :: ':' :: '"' ::
      (escapeChars pk ++ '"' :: ',' :: '"' :: 'S' :: 'K' :: '"' :: ':' :: '"' ::
        (escapeChars sk ++ ['"', rbraceChar]))).length
    ['P', 'K'] pk ['S', 'K'] sk

theorem decodeCursor_encodeCursor (pk sk : String)
    (hpk : strStarts pk "CLINIC#" = true) (hsk : strStarts sk "NOTE#" = true) :
    decodeCursor (encodeCursor pk sk) = some (pk, sk) := by
  unfold encodeCursor decodeCursor
  rw [show (String.mk (b64encodeBytes (utf8Encode (cursorJsonChars pk.data sk.data)))).data
      = b64encodeBytes (utf8Encode (cursorJsonChars pk.data sk.data)) from rfl]
  rw [show b64decodeChars (b64encodeBytes (utf8Encode (cursorJsonChars pk.data sk.data))) =
      utf8Encode (cursorJsonChars pk.data sk.data) from
    b64_roundtrip _ (utf8Encode_lt_256 _)]
  rw [utf8Decode_utf8Encode]
  rw [parseCursorObj_cursorJson]
  have h1 : lookupLast "PK"
      [(String.mk ['P', 'K'], String.mk pk.data), (String.mk ['S', 'K'], String.mk sk.data)] =
      some (String.mk pk.data) := by
    simp [lookupLast]
  have h2 : lookupLast "SK"
      [(String.mk ['P', 'K'], String.mk pk.data), (String.mk ['S', 'K'], String.mk sk.data)] =
      some (String.mk sk.data) := by
    simp [lookupLast]
  simp only [h1, h2]
  show (if (strStarts pk "CLINIC#" && strStarts sk "NOTE#") = true then some (pk, sk)
      else none) = some (pk, sk)
  rw [hpk, hsk]
  rfl

theorem decodeCursor_shape (s : String) :
    decodeCursor s = none ∨
    ∃ pk sk, decodeCursor s = some (pk, sk) ∧
      strStarts pk "CLINIC#" = true ∧ strStarts sk "NOTE#" = true := by
  unfold decodeCursor
  cases hobj : parseCursorObj (utf8Decode (b64decodeChars s.data)) with
  | none =>
    left
    rfl
  | some ms =>
    cases hpk : lookupLast "PK" ms with
    | none =>
      left
      simp only [hpk]
    | some pk' =>
      cases hsk : lookupLast "SK" ms with
      | none =>
        left
        simp only [hpk, hsk]
      | some sk' =>
        by_cases hcond : (strStarts pk' "CLINIC#" && strStarts sk' "NOTE#") = true
        · right
          obtain ⟨h1, h2⟩ : strStarts pk' "CLINIC#" = true ∧ strStarts sk' "NOTE#" = true := by
            simpa using hcond
          refine ⟨pk', sk', ?_, h1, h2⟩
          simp only [hpk, hsk]
          rw [if_pos hcond]
        · left
          simp only [hpk, hsk]
          rw [if_neg hcond]

/-- C5: for every key pair of the expected families,
`decodeCursor (encodeCursor pk sk) = (pk, sk)`; and `decodeCursor` is a total
function that, on every input string, either reports "invalid" (`none` —
never a thrown fault) or yields a key pair validated against the
`CLINIC#`/`NOTE#` prefix families; any input outside those shapes — tampered
bytes, non-base64url data, non-JSON payloads, foreign key families — ends in
`none`. -/
theorem C5_cursor_codec_roundtrip (pk sk : String)
    (hpk : strStarts pk "CLINIC#" = true) (hsk : strStarts sk "NOTE#" = true) :
    decodeCursor (encodeCursor pk sk) = some (pk, sk) ∧
    ∀ s : String,
      decodeCursor s = none ∨
      ∃ pk' sk', decodeCursor s = some (pk', sk') ∧
        strStarts pk' "CLINIC#" = true ∧ strStarts sk' "NOTE#" = true :=
  ⟨decodeCursor_encodeCursor pk sk hpk hsk, decodeCursor_shape⟩

/-- C5 witness: concrete round trip, plus `none` on garbage, on the empty
string, and on a well-formed cursor whose partition key is outside the
`CLINIC#` family. -/
theorem C5_cursor_codec_roundtrip_witness :
    decodeCursor (encodeCursor "CLINIC#c#PATIENT#p" "NOTE#2024-01-03#n3") =
      some ("CLINIC#c#PATIENT#p", "NOTE#2024-01-03#n3") ∧
    (decodeCursor "garbage!!!" = none ∨
      ∃ pk' sk', decodeCursor "garbage!!!" = some (pk', sk') ∧
        strStarts pk' "CLINIC#" = true ∧ strStarts sk' "NOTE#" = true) ∧
    decodeCursor "garbage!!!" = none ∧
    decodeCursor "" = none ∧
    decodeCursor (encodeCursor "WRONG#x" "NOTE#y") = none :=
  ⟨(C5_cursor_codec_roundtrip "CLINIC#c#PATIENT#p" "NOTE#2024-01-03#n3"
      (by decide) (by decide)).1,
    (C5_cursor_codec_roundtrip "CLINIC#c#PATIENT#p" "NOTE#2024-01-03#n3"
      (by decide) (by decide)).2 "garbage!!!",
    by decide, by decide, by decide⟩
